import Mathlib

/-!
Verification of the FeatureFlagsHQ Python SDK core: a shallow embedding of
`featureflagshq/models.py` (segment matching, flag evaluation, type coercion)
and `featureflagshq/sdk.py` (circuit breaker, per-user rate limiter, telemetry
queue, batched log upload, client facade `get` and typed accessors), with
theorems checking the natural-language specification against this embedding.

Machine integers are `Nat`/`Int` with explicit `% 2^32` where the source relies
on 32-bit behaviour (SHA-256).  Python floats are modelled as exact rationals
plus the non-finite values `inf`, `-inf`, `nan`; parses saturate to infinity
at the binary64 overflow threshold as Python's `float()` does, while rounding
of in-range literals is abstracted (exact rationals).  Python exceptions
become an explicit error type threaded through `Except`.
-/

namespace FFH

/-! ## SHA-256 over byte lists (hashlib.sha256, used by the rollout bucket) -/

/-- 2^32, the modulus of SHA-256 word arithmetic. -/
def M32 : Nat := 4294967296

/-- Reduce to a 32-bit word. -/
def w32 (x : Nat) : Nat := x % M32

/-- 32-bit right rotation. -/
def rotr (n x : Nat) : Nat := w32 ((x >>> n) ||| (x <<< (32 - n)))

/-- Logical right shift. -/
def shr (n x : Nat) : Nat := x >>> n

/-- 32-bit bitwise complement. -/
def bnot32 (x : Nat) : Nat := Nat.xor x (M32 - 1)

/-- SHA-256 big sigma 0. -/
def bsig0 (x : Nat) : Nat := Nat.xor (rotr 2 x) (Nat.xor (rotr 13 x) (rotr 22 x))

/-- SHA-256 big sigma 1. -/
def bsig1 (x : Nat) : Nat := Nat.xor (rotr 6 x) (Nat.xor (rotr 11 x) (rotr 25 x))

/-- SHA-256 small sigma 0. -/
def ssig0 (x : Nat) : Nat := Nat.xor (rotr 7 x) (Nat.xor (rotr 18 x) (shr 3 x))

/-- SHA-256 small sigma 1. -/
def ssig1 (x : Nat) : Nat := Nat.xor (rotr 17 x) (Nat.xor (rotr 19 x) (shr 10 x))

/-- SHA-256 choose function. -/
def chFn (x y z : Nat) : Nat := Nat.xor (Nat.land x y) (Nat.land (bnot32 x) z)

/-- SHA-256 majority function. -/
def majFn (x y z : Nat) : Nat :=
  Nat.xor (Nat.land x y) (Nat.xor (Nat.land x z) (Nat.land y z))

/-- The 64 SHA-256 round constants. -/
def shaK : List Nat :=
  [1116352408, 1899447441, 3049323471, 3921009573, 961987163,
   1508970993, 2453635748, 2870763221, 3624381080, 310598401,
   607225278, 1426881987, 1925078388, 2162078206, 2614888103,
   3248222580, 3835390401, 4022224774, 264347078, 604807628,
   770255983, 1249150122, 1555081692, 1996064986, 2554220882,
   2821834349, 2952996808, 3210313671, 3336571891, 3584528711,
   113926993, 338241895, 666307205, 773529912, 1294757372,
   1396182291, 1695183700, 1986661051, 2177026350, 2456956037,
   2730485921, 2820302411, 3259730800, 3345764771, 3516065817,
   3600352804, 4094571909, 275423344, 430227734, 506948616,
   659060556, 883997877, 958139571, 1322822218, 1537002063,
   1747873779, 1955562222, 2024104815, 2227730452, 2361852424,
   2428436474, 2756734187, 3204031479, 3329325298]

/-- The SHA-256 initial hash value. -/
def shaH0 : List Nat :=
  [1779033703, 3144134277, 1013904242, 2773480762,
   1359893119, 2600822924, 528734635, 1541459225]

/-- A `Nat` as 8 big-endian bytes (the SHA-256 length field). -/
def be64 (n : Nat) : List Nat :=
  [(n >>> 56) &&& 255, (n >>> 48) &&& 255, (n >>> 40) &&& 255, (n >>> 32) &&& 255,
   (n >>> 24) &&& 255, (n >>> 16) &&& 255, (n >>> 8) &&& 255, n &&& 255]

/-- A 32-bit word as 4 big-endian bytes. -/
def be32 (n : Nat) : List Nat :=
  [(n >>> 24) &&& 255, (n >>> 16) &&& 255, (n >>> 8) &&& 255, n &&& 255]

/-- SHA-256 message padding: append 0x80, zero bytes, and the 64-bit bit length. -/
def padMessage (msg : List Nat) : List Nat :=
  let l := msg.length
  msg ++ [0x80] ++ List.replicate ((119 - l % 64) % 64) 0 ++ be64 (8 * l)

/-- Group bytes into big-endian 32-bit words. -/
def bytesToWords : List Nat → List Nat
  | a :: b :: c :: d :: rest =>
      ((a <<< 24) ||| (b <<< 16) ||| (c <<< 8) ||| d) :: bytesToWords rest
  | _ => []

/-- Split a byte list into 64-byte blocks (fuel-structural so it reduces in the
kernel; the fuel is the list length, an upper bound on the block count). -/
def chunk64Go : Nat → List Nat → List (List Nat)
  | 0, _ => []
  | _, [] => []
  | fuel + 1, l => l.take 64 :: chunk64Go fuel (l.drop 64)

/-- Split a byte list into 64-byte blocks. -/
def chunk64 (l : List Nat) : List (List Nat) := chunk64Go l.length l

/-- One extension step of the SHA-256 message schedule. -/
def extendW (acc : List Nat) : List Nat :=
  let n := acc.length
  acc ++ [w32 (ssig1 (acc.getD (n - 2) 0) + acc.getD (n - 7) 0 +
               ssig0 (acc.getD (n - 15) 0) + acc.getD (n - 16) 0)]

/-- Extend 16 message words to the 64-entry schedule. -/
def schedule (ws : List Nat) : List Nat :=
  (List.range 48).foldl (fun acc _ => extendW acc) ws

/-- The eight SHA-256 working variables. -/
structure Hs where
  a : Nat
  b : Nat
  c : Nat
  d : Nat
  e : Nat
  f : Nat
  g : Nat
  h : Nat
deriving Repr, DecidableEq

/-- One SHA-256 compression round. -/
def roundStep (st : Hs) (kw : Nat × Nat) : Hs :=
  let t1 := w32 (st.h + bsig1 st.e + chFn st.e st.f st.g + kw.1 + kw.2)
  let t2 := w32 (bsig0 st.a + majFn st.a st.b st.c)
  ⟨w32 (t1 + t2), st.a, st.b, st.c, w32 (st.d + t1), st.e, st.f, st.g⟩

/-- Compress one 64-byte block into the running hash value. -/
def compress (hv : List Nat) (chunkBytes : List Nat) : List Nat :=
  let ws := schedule (bytesToWords chunkBytes)
  let i0 : Hs := ⟨hv.getD 0 0, hv.getD 1 0, hv.getD 2 0, hv.getD 3 0,
                  hv.getD 4 0, hv.getD 5 0, hv.getD 6 0, hv.getD 7 0⟩
  let fin := (shaK.zip ws).foldl roundStep i0
  [w32 (hv.getD 0 0 + fin.a), w32 (hv.getD 1 0 + fin.b), w32 (hv.getD 2 0 + fin.c),
   w32 (hv.getD 3 0 + fin.d), w32 (hv.getD 4 0 + fin.e), w32 (hv.getD 5 0 + fin.f),
   w32 (hv.getD 6 0 + fin.g), w32 (hv.getD 7 0 + fin.h)]

/-- SHA-256 of a byte list, as the 32 digest bytes. -/
def sha256Bytes (msg : List Nat) : List Nat :=
  (((chunk64 (padMessage msg)).foldl compress shaH0).map be32).flatten

/-- Lowercase hex digit. -/
def hexDigit (n : Nat) : Char := if n < 10 then Char.ofNat (48 + n) else Char.ofNat (87 + n)

/-- A byte as two lowercase hex characters. -/
def byteHex (b : Nat) : List Char := [hexDigit (b / 16), hexDigit (b % 16)]

/-- Lowercase hex digest of a byte list (hashlib `hexdigest`). -/
def hexdigest (bytes : List Nat) : String := ⟨(bytes.map byteHex).flatten⟩

/-- Numeric value of one hex character (int(_, 16) on a digit). -/
def hexCharVal (c : Char) : Nat :=
  if c.toNat ≥ 97 then c.toNat - 87
  else if c.toNat ≥ 65 then c.toNat - 55
  else c.toNat - 48

/-- Parse hex characters as a base-16 number (Python `int(s, 16)` on valid input). -/
def hexToNat (s : List Char) : Nat := s.foldl (fun acc c => 16 * acc + hexCharVal c) 0

/-- UTF-8 encoding of one character (`str.encode()`). -/
def utf8Char (c : Char) : List Nat :=
  let n := c.toNat
  if n < 128 then [n]
  else if n < 2048 then [192 ||| (n >>> 6), 128 ||| (n &&& 63)]
  else if n < 65536 then
    [224 ||| (n >>> 12), 128 ||| ((n >>> 6) &&& 63), 128 ||| (n &&& 63)]
  else
    [240 ||| (n >>> 18), 128 ||| ((n >>> 12) &&& 63),
     128 ||| ((n >>> 6) &&& 63), 128 ||| (n &&& 63)]

/-- UTF-8 bytes of a string (`str.encode()`). -/
def utf8 (s : String) : List Nat := (s.data.map utf8Char).flatten

/-- `hashlib.sha256(f"{name}_{user_id}_{version}".encode()).hexdigest()`
from `FeatureFlagsHQFlag.evaluate_for_user`. -/
def userHashHex (flagName userId : String) (version : Int) : String :=
  hexdigest (sha256Bytes (utf8 (flagName ++ "_" ++ userId ++ "_" ++ toString version)))

/-- `int(user_hash[:8], 16) % 100`: the sticky rollout bucket of a user. -/
def userBucket (flagName userId : String) (version : Int) : Nat :=
  hexToNat ((userHashHex flagName userId version).data.take 8) % 100


/-! ## Python runtime model: exceptions, floats, values -/

/-- The Python exception kinds the embedded code can raise or catch.
`jsonDecodeError` is a `ValueError` subclass; `regexError` (re.error) and
`attributeError` and `overflowError` are NOT subclasses of
`ValueError`/`TypeError`.  `ffhqError` stands for the SDK's own
`FeatureFlagsHQError` hierarchy raised by input validation. -/
inductive PyErr where
  | valueError
  | typeError
  | importError
  | attributeError
  | overflowError
  | regexError
  | jsonDecodeError
  | ffhqError
deriving Repr, DecidableEq

/-- Whether except-clause `(ValueError, TypeError, ImportError)` of
`matches_segment` catches the exception (`json.JSONDecodeError` is a
`ValueError` subclass). -/
def caughtByMatches : PyErr → Bool
  | .valueError => true
  | .typeError => true
  | .importError => true
  | .jsonDecodeError => true
  | _ => false

/-- Whether except-clause `(ValueError, json.JSONDecodeError)` of
`_get_typed_value` catches the exception. -/
def caughtByTypedValue : PyErr → Bool
  | .valueError => true
  | .jsonDecodeError => true
  | _ => false

/-- Python floats: exact rationals plus the non-finite values.  Rounding of
finite literals to binary64 is abstracted away (finite parses are exact);
no claim under check depends on binary rounding. -/
inductive PyFloat where
  | fin (q : ℚ)
  | inf
  | ninf
  | nan
deriving Repr, DecidableEq

/-- Python scalar/JSON values as they flow through the SDK: strings, ints,
floats, bools, None, lists and (string-keyed) dicts. -/
inductive PyVal where
  | s (v : String)
  | i (v : Int)
  | f (v : PyFloat)
  | b (v : Bool)
  | none
  | list (l : List PyVal)
  | dict (l : List (String × PyVal))

/-- Python truthiness (`bool(x)`). -/
def truthy : PyVal → Bool
  | .s v => !(v == "")
  | .i v => !(v == 0)
  | .f (.fin q) => !(q == 0)
  | .f _ => true
  | .b v => v
  | .none => false
  | .list l => !l.isEmpty
  | .dict l => !l.isEmpty

/-- Numeric value of a digit run. -/
def digitsVal (cs : List Char) : Nat := cs.foldl (fun a c => 10 * a + (c.toNat - 48)) 0

/-- All characters are ASCII digits, and the run is non-empty. -/
def allDigits (cs : List Char) : Bool := !cs.isEmpty && cs.all (fun c => c.isDigit)

/-- Python `str.strip()` whitespace characters. -/
def pyWsChar (c : Char) : Bool :=
  c = ' ' ∨ c = '\t' ∨ c = '\n' ∨ c = '\r' ∨ c = Char.ofNat 11 ∨ c = Char.ofNat 12

/-- `str.strip()` on a character list. -/
def trimChars (cs : List Char) : List Char :=
  ((cs.dropWhile pyWsChar).reverse.dropWhile pyWsChar).reverse

/-- `str.strip()` (kernel-reducible replacement for `String.trim`). -/
def strTrim (s : String) : String := ⟨trimChars s.data⟩

/-- `str.lower()` (kernel-reducible replacement for `String.toLower`). -/
def strLower (s : String) : String := ⟨s.data.map Char.toLower⟩

/-- Lexicographic by code point, as Python compares strings. -/
def charsLt : List Char → List Char → Bool
  | [], [] => false
  | [], _ :: _ => true
  | _ :: _, [] => false
  | a :: as, b :: bs =>
      if a.toNat < b.toNat then true
      else if b.toNat < a.toNat then false
      else charsLt as bs

/-- `a < b` on Python strings. -/
def strLt (a b : String) : Bool := charsLt a.data b.data

/-- `hay.startswith(needle)`. -/
def strStarts (hay needle : String) : Bool := decide (needle.data <+: hay.data)

/-- `hay.endswith(needle)`. -/
def strEnds (hay needle : String) : Bool := decide (needle.data <:+ hay.data)

/-- `s.split(',')`. -/
def strSplitComma (s : String) : List String := (s.data.splitOn ',').map (fun l => ⟨l⟩)

/-- Split off an optional sign, returning (negative?, rest). -/
def splitSign : List Char → Bool × List Char
  | '-' :: rest => (true, rest)
  | '+' :: rest => (false, rest)
  | cs => (false, cs)

/-- Exponentiation by squaring, fuel-structural so that large decimal
exponents reduce shallowly in the kernel (exact for exponents below 2^128,
far past anything a parse can usefully scale by). -/
def powSq (b : Nat) : Nat → Nat → Nat
  | 0, _ => 1
  | _, 0 => 1
  | fuel + 1, n =>
      let h := powSq b fuel (n / 2)
      if n % 2 = 0 then h * h else h * h * b

/-- `10 ^ n` by squaring. -/
def pow10 (n : Nat) : Nat := powSq 10 128 n

/-- `2^1024 - 2^970`, the round-to-nearest overflow threshold of binary64:
Python's `float()` saturates any decimal literal of at least this magnitude
to `inf`.  (Rounding of in-range literals remains abstracted as exact.) -/
def dblOvf : ℚ := mkRat 179769313486231580793728971405303415079934132710037826936173778980444968292764750946649017977587207096330286416692887910946555547851940402630657488671505820681908902000708383676273854845817711531764475730270069855571366959622842914819860834936475292719074168444365510704342711559699508093042880177904174497792 1

/-- Finish a `float()` parse of an unsigned decimal value: saturate to the
signed infinity at the binary64 overflow threshold, as Python's `float()`
does, else apply the sign to the exact value. -/
def satFloat (neg : Bool) (q : ℚ) : PyFloat :=
  if dblOvf ≤ q then (if neg then .ninf else .inf)
  else .fin (if neg then -q else q)

/-- Parse the decimal mantissa `digits[.digits]` (at least one digit overall),
as a numerator and a power-of-ten denominator. -/
def parseMantissa (cs : List Char) : Option (ℤ × Nat) :=
  match cs.splitOn '.' with
  | [ip] => if allDigits ip then some ((digitsVal ip : ℤ), 1) else Option.none
  | [ip, fp] =>
      if (ip.all (fun c => c.isDigit) && fp.all (fun c => c.isDigit))
          && !(ip.isEmpty && fp.isEmpty) then
        some ((digitsVal (ip ++ fp) : ℤ), 10 ^ fp.length)
      else Option.none
  | _ => Option.none

/-- Assemble a rational from mantissa numerator/denominator and a decimal
exponent (kernel-reducible: `mkRat` plus squaring powers only). -/
def assembleRat (num : ℤ) (den : Nat) (ex : ℤ) : ℚ :=
  if ex ≥ 0 then mkRat (num * Int.ofNat (pow10 ex.toNat)) den
  else mkRat num (den * pow10 (-ex).toNat)

/-- Parse an optionally signed decimal exponent. -/
def parseExp (cs : List Char) : Option ℤ :=
  let (neg, ds) := splitSign cs
  if allDigits ds then some (if neg then -(digitsVal ds : ℤ) else (digitsVal ds : ℤ))
  else Option.none

/-- `float(s)` on a string: strip whitespace, optional sign, then a decimal
literal with optional exponent — saturated to the signed infinity past the
binary64 overflow threshold, as Python's `float()` does — or the
case-insensitive literals `inf`/`infinity`/`nan`.  (Underscore separators and
unicode digits are outside the model.) -/
def pyFloatParse (str : String) : Option PyFloat :=
  let (neg, cs0) := splitSign (trimChars str.data)
  let cs := cs0.map Char.toLower
  if cs = "inf".data ∨ cs = "infinity".data then some (if neg then .ninf else .inf)
  else if cs = "nan".data then some .nan
  else
    let q? : Option ℚ :=
      match cs.splitOn 'e' with
      | [m] => (parseMantissa m).map (fun p => assembleRat p.1 p.2 0)
      | [m, e1] => do
          let p ← parseMantissa m
          let ex ← parseExp e1
          pure (assembleRat p.1 p.2 ex)
      | _ => Option.none
    q?.map (satFloat neg)

/-- `int(s)` on a string: strip, optional sign, decimal digits only. -/
def pyIntParse (str : String) : Option ℤ :=
  let (neg, cs) := splitSign (trimChars str.data)
  if allDigits cs then some (if neg then -(digitsVal cs : ℤ) else (digitsVal cs : ℤ))
  else Option.none

/-- Truncation toward zero, as Python `int(float)` rounds. -/
def ratTrunc (q : ℚ) : ℤ := Int.tdiv q.num (q.den : ℤ)

/-- `int(x)` applied to a float: truncates finite values, raises
`OverflowError` on infinities and `ValueError` on nan. -/
def intOfPyFloat : PyFloat → Except PyErr ℤ
  | .fin q => .ok (ratTrunc q)
  | .inf => .error .overflowError
  | .ninf => .error .overflowError
  | .nan => .error .valueError

/-- `float(x)` on an arbitrary value. -/
def pyFloatOfVal : PyVal → Except PyErr PyFloat
  | .s v => match pyFloatParse v with
            | some fl => .ok fl
            | Option.none => .error .valueError
  | .i n => .ok (.fin (n : ℚ))
  | .f fl => .ok fl
  | .b bv => .ok (.fin (if bv then 1 else 0))
  | _ => .error .typeError

/-- `int(x)` on an arbitrary value. -/
def pyIntOfVal : PyVal → Except PyErr ℤ
  | .s v => match pyIntParse v with
            | some n => .ok n
            | Option.none => .error .valueError
  | .i n => .ok n
  | .f fl => intOfPyFloat fl
  | .b bv => .ok (if bv then 1 else 0)
  | _ => .error .typeError

/-- Display form of a finite float.  Python prints shortest round-trip decimal;
the model prints `num.0` for integers and `num/den` otherwise — only the fact
that distinct classes of values stringify somehow is used by the claims. -/
def floatReprModel : PyFloat → String
  | .fin q => if q.den == 1 then toString q.num ++ ".0" else toString q.num ++ "/" ++ toString q.den
  | .inf => "inf"
  | .ninf => "-inf"
  | .nan => "nan"

/-- `str(x)` (list/dict display forms abbreviated; no claim depends on them). -/
def pyStr : PyVal → String
  | .s v => v
  | .i n => toString n
  | .f fl => floatReprModel fl
  | .b true => "True"
  | .b false => "False"
  | .none => "None"
  | .list _ => "[...]"
  | .dict _ => "\x7b...\x7d"

/-- Float equality: finite values by exact value, `nan` unequal to everything. -/
def pyFloatEq : PyFloat → PyFloat → Bool
  | .fin a, .fin b => a == b
  | .inf, .inf => true
  | .ninf, .ninf => true
  | _, _ => false

mutual

/-- Python `==` between values (used by the typed accessors).  Numeric values
(int/float/bool) compare by value across types, as in Python; `nan` is not
equal to anything.  List/dict equality is elementwise. -/
def pyEqBool : PyVal → PyVal → Bool
  | .s a, .s b => a == b
  | .i a, .i b => a == b
  | .i a, .f bf => pyFloatEq (.fin a) bf
  | .i a, .b bb => a == (if bb then 1 else 0)
  | .f af, .f bf => pyFloatEq af bf
  | .f af, .i b => pyFloatEq af (.fin b)
  | .f af, .b bb => pyFloatEq af (.fin (if bb then 1 else 0))
  | .b ab, .b bb => ab == bb
  | .b ab, .i b => (if ab then 1 else 0 : ℤ) == b
  | .b ab, .f bf => pyFloatEq (.fin (if ab then 1 else 0)) bf
  | .none, .none => true
  | .list a, .list b => pyEqList a b
  | .dict a, .dict b => pyEqDict a b
  | _, _ => false

def pyEqList : List PyVal → List PyVal → Bool
  | [], [] => true
  | x :: xs, y :: ys => pyEqBool x y && pyEqList xs ys
  | _, _ => false

def pyEqDict : List (String × PyVal) → List (String × PyVal) → Bool
  | [], [] => true
  | (k1, v1) :: xs, (k2, v2) :: ys => k1 == k2 && pyEqBool v1 v2 && pyEqDict xs ys
  | _, _ => false

end

/-! ## json.loads: a fuel-structural JSON parser producing `PyVal` -/

/-- Skip JSON whitespace. -/
def skipWs : List Char → List Char
  | c :: cs => if c = ' ' ∨ c = '\t' ∨ c = '\n' ∨ c = '\r' then skipWs cs else c :: cs
  | [] => []

/-- Parse the body of a JSON string after the opening quote.  The common
escapes are handled; `\uXXXX` escapes are outside the model. -/
def parseJStrGo : List Char → Option (List Char × List Char)
  | [] => Option.none
  | '"' :: rest => some ([], rest)
  | '\\' :: e :: rest => do
      let c ← (match e with
        | '"' => some '"'
        | '\\' => some '\\'
        | '/' => some '/'
        | 'n' => some '\n'
        | 't' => some '\t'
        | 'r' => some '\r'
        | 'b' => some (Char.ofNat 8)
        | 'f' => some (Char.ofNat 12)
        | _ => Option.none)
      let (cs, rest2) ← parseJStrGo rest
      pure (c :: cs, rest2)
  | c :: rest => do
      let (cs, rest2) ← parseJStrGo rest
      pure (c :: cs, rest2)

/-- Sign and digits of an exponent. -/
def parseJExpDigits (r : List Char) : Option (ℤ × List Char) :=
  let (neg, r2) := splitSign r
  let ds := r2.takeWhile Char.isDigit
  let r3 := r2.dropWhile Char.isDigit
  if ds.isEmpty then Option.none
  else some ((if neg then -(digitsVal ds : ℤ) else (digitsVal ds : ℤ)), r3)

/-- Parse a JSON exponent part (after the mantissa), `e`/`E` sign digits. -/
def parseJExp : List Char → Option (ℤ × List Char)
  | 'e' :: r => parseJExpDigits r
  | 'E' :: r => parseJExpDigits r
  | _ => Option.none

/-- Parse a JSON number: `-?digits(.digits)?([eE][+-]?digits)?`; an integer
literal yields a Python `int`, otherwise a `float`. -/
def parseJNum (cs : List Char) : Option (PyVal × List Char) :=
  let (neg, cs1) := (match cs with | '-' :: r => (true, r) | r => (false, r))
  let ip := cs1.takeWhile Char.isDigit
  let r1 := cs1.dropWhile Char.isDigit
  if ip.isEmpty then Option.none else
  let fracRes : Option (List Char × List Char) :=
    match r1 with
    | '.' :: r =>
        let fp := r.takeWhile Char.isDigit
        if fp.isEmpty then Option.none else some (fp, r.dropWhile Char.isDigit)
    | r => some ([], r)
  match fracRes with
  | Option.none => Option.none
  | some (fp, r2) =>
    let hasExp := match r2 with | 'e' :: _ => true | 'E' :: _ => true | _ => false
    if hasExp then
      match parseJExp r2 with
      | Option.none => Option.none
      | some (ex, r3) =>
          let q : ℚ := assembleRat (digitsVal (ip ++ fp) : ℤ) (10 ^ fp.length) ex
          some (.f (satFloat neg q), r3)
    else if fp.isEmpty then
      some (.i (if neg then -(digitsVal ip : ℤ) else (digitsVal ip : ℤ)), r2)
    else
      let q : ℚ := assembleRat (digitsVal (ip ++ fp) : ℤ) (10 ^ fp.length) 0
      some (.f (satFloat neg q), r2)

mutual

/-- Parse one JSON value (fuel-structural). -/
def parseJVal : Nat → List Char → Option (PyVal × List Char)
  | 0, _ => Option.none
  | fuel + 1, cs =>
    match skipWs cs with
    | 'n' :: 'u' :: 'l' :: 'l' :: r => some (.none, r)
    | 't' :: 'r' :: 'u' :: 'e' :: r => some (.b true, r)
    | 'f' :: 'a' :: 'l' :: 's' :: 'e' :: r => some (.b false, r)
    | 'N' :: 'a' :: 'N' :: r => some (.f .nan, r)
    | 'I' :: 'n' :: 'f' :: 'i' :: 'n' :: 'i' :: 't' :: 'y' :: r =>
        some (.f .inf, r)
    | '-' :: 'I' :: 'n' :: 'f' :: 'i' :: 'n' :: 'i' :: 't' :: 'y' :: r =>
        some (.f .ninf, r)
    | '"' :: r => (parseJStrGo r).map (fun p => (.s ⟨p.1⟩, p.2))
    | '[' :: r =>
        (match skipWs r with
         | ']' :: r2 => some (.list [], r2)
         | r2 => (parseJArr fuel r2).map (fun p => (.list p.1, p.2)))
    | c :: r =>
        if c = Char.ofNat 123 then
          (match skipWs r with
           | '"' :: r2 => (parseJObj fuel ('"' :: r2)).map (fun p => (.dict p.1, p.2))
           | r2 =>
             if r2.head? = some (Char.ofNat 125) then some (.dict [], r2.tail)
             else Option.none)
        else parseJNum (c :: r)
    | [] => Option.none

/-- Parse the elements of a JSON array after `[` (at a first element). -/
def parseJArr : Nat → List Char → Option (List PyVal × List Char)
  | 0, _ => Option.none
  | fuel + 1, cs => do
      let (v, r) ← parseJVal fuel cs
      match skipWs r with
      | ',' :: r2 => do
          let (vs, r3) ← parseJArr fuel r2
          pure (v :: vs, r3)
      | ']' :: r2 => pure ([v], r2)
      | _ => Option.none

/-- Parse the members of a JSON object after the opening brace (at a first key). -/
def parseJObj : Nat → List Char → Option (List (String × PyVal) × List Char)
  | 0, _ => Option.none
  | fuel + 1, cs =>
    match skipWs cs with
    | '"' :: r => do
        let (k, r2) ← parseJStrGo r
        match skipWs r2 with
        | ':' :: r3 => do
            let (v, r4) ← parseJVal fuel r3
            (match skipWs r4 with
             | ',' :: r5 => do
                 let (kvs, r6) ← parseJObj fuel r5
                 pure ((⟨k⟩, v) :: kvs, r6)
             | c :: r5 =>
                 if c = Char.ofNat 125 then pure ([(⟨k⟩, v)], r5) else Option.none
             | [] => Option.none)
        | _ => Option.none
    | _ => Option.none

end

/-- `json.loads(s)`: parse one JSON document with nothing but whitespace after
it; Python's default parser also accepts the non-standard `NaN`, `Infinity`
and `-Infinity` literals as floats.  `Option.none` models
`json.JSONDecodeError`. -/
def jsonParse (str : String) : Option PyVal :=
  match parseJVal (2 * str.data.length + 4) str.data with
  | some (v, rest) => if (skipWs rest).isEmpty then some v else Option.none
  | Option.none => Option.none

/-! ## FeatureFlagsHQSegment.matches_segment (models.py) -/

/-- A FeatureFlagsHQ segment (dataclass fields of `FeatureFlagsHQSegment`). -/
structure FeatureFlagsHQSegment where
  name : String
  type : String
  comparator : String
  value : String
  is_active : Bool
  created_at : String

/-- The pair (segment_val, user_val) after the type coercion of
`matches_segment`, by declared segment type. -/
inductive Coerced where
  | flt (sv uv : PyFloat)
  | int (sv uv : ℤ)
  | bool (sv uv : Bool)
  | str (sv uv : String)

/-- `float(s)` on the segment's own (string) value. -/
def floatOfStr (str : String) : Except PyErr PyFloat :=
  match pyFloatParse str with
  | some fl => .ok fl
  | Option.none => .error .valueError

/-- `int(s)` on the segment's own (string) value. -/
def intOfStr (str : String) : Except PyErr ℤ :=
  match pyIntParse str with
  | some n => .ok n
  | Option.none => .error .valueError

/-- The type-coercion block of `matches_segment`: coerce the segment's declared
value and the caller's value to the declared type (`float`/`int`/`bool`, else
string). -/
def coerceSeg (seg : FeatureFlagsHQSegment) (v : PyVal) : Except PyErr Coerced :=
  if seg.type = "float" then do
    let sv ← floatOfStr seg.value
    let uv ← pyFloatOfVal v
    .ok (.flt sv uv)
  else if seg.type = "int" then do
    let sv ← intOfStr seg.value
    let uv ← pyIntOfVal v
    .ok (.int sv uv)
  else if seg.type = "bool" then
    .ok (.bool (strLower seg.value == "true") (truthy v))
  else
    .ok (.str seg.value (pyStr v))

/-- `user_val == segment_val` on coerced pairs (Python `==`; `nan` equals
nothing). -/
def coEq : Coerced → Bool
  | .flt sv uv => pyFloatEq uv sv
  | .int sv uv => uv == sv
  | .bool sv uv => uv == sv
  | .str sv uv => uv == sv

/-- Strict float `<` with `nan` incomparable. -/
def pyFloatLt : PyFloat → PyFloat → Bool
  | .fin a, .fin b => a < b
  | .fin _, .inf => true
  | .ninf, .fin _ => true
  | .ninf, .inf => true
  | _, _ => false

/-- `user_val < segment_val` on coerced pairs (Python `<`; bools order as 0/1,
strings by code point). -/
def coUvLtSv : Coerced → Bool
  | .flt sv uv => pyFloatLt uv sv
  | .int sv uv => decide (uv < sv)
  | .bool sv uv => !uv && sv
  | .str sv uv => strLt uv sv

/-- `segment_val < user_val` on coerced pairs. -/
def coSvLtUv : Coerced → Bool
  | .flt sv uv => pyFloatLt sv uv
  | .int sv uv => decide (sv < uv)
  | .bool sv uv => !sv && uv
  | .str sv uv => strLt sv uv

/-- Substring test (`needle in hay` on Python strings). -/
def strContains (hay needle : String) : Bool := decide (needle.data <:+: hay.data)

/-- Characters with a special meaning in Python regular expressions. -/
def regexMeta : List Char :=
  ['.', '^', '$', '*', '+', '?', '\\', '[', ']', '(', ')', '|',
   Char.ofNat 123, Char.ofNat 125]

/-- Models `re.search(pattern, s)`.  On metacharacter-free patterns Python's
`re.search` is literal substring search, which the model implements; for
patterns containing metacharacters the model conservatively answers
`re.error` (an over-approximation of the invalid-pattern set — e.g. `"("`
really does raise `re.error` in Python).  No claim depends on the match
value of a metacharacter pattern, only on the fact that `re.error` is not a
`ValueError`/`TypeError` and so escapes `matches_segment`'s except clause. -/
def reSearch (pattern hay : String) : Except PyErr Bool :=
  if pattern.data.all (fun c => !(regexMeta.contains c)) then
    .ok (strContains hay pattern)
  else .error .regexError

/-- The comparator dispatch of `matches_segment` (applied after coercion).
Comparisons are `user_val OP segment_val`; `contains`/`starts_with`/
`ends_with`/`regex` raise `TypeError` when `segment_val` is not a string
(caught by the caller); `in` calls `segment_val.split(',')`, which raises
`AttributeError` when the coerced segment value is a float/int/bool —
an exception the except clause does NOT catch.  An unknown comparator logs
a warning and returns `False`. -/
def applyComparator (cmp : String) (c : Coerced) : Except PyErr Bool :=
  if cmp = "==" then .ok (coEq c)
  else if cmp = "!=" then .ok (!coEq c)
  else if cmp = ">" then .ok (coSvLtUv c)
  else if cmp = ">=" then .ok (coSvLtUv c || coEq c)
  else if cmp = "<" then .ok (coUvLtSv c)
  else if cmp = "<=" then .ok (coUvLtSv c || coEq c)
  else if cmp = "contains" then
    match c with
    | .str sv uv => .ok (strContains uv sv)
    | _ => .error .typeError
  else if cmp = "starts_with" then
    match c with
    | .str sv uv => .ok (strStarts uv sv)
    | _ => .error .typeError
  else if cmp = "ends_with" then
    match c with
    | .str sv uv => .ok (strEnds uv sv)
    | _ => .error .typeError
  else if cmp = "regex" then
    match c with
    | .str sv uv => reSearch sv uv
    | _ => .error .typeError
  else if cmp = "in" then
    match c with
    | .str sv uv => .ok (((strSplitComma sv).map strTrim).contains uv)
    | _ => .error .attributeError
  else .ok false

/-- The try-block of `matches_segment`: coercion then comparator. -/
def matchesBody (seg : FeatureFlagsHQSegment) (v : PyVal) : Except PyErr Bool := do
  let c ← coerceSeg seg v
  applyComparator seg.comparator c

/-- `FeatureFlagsHQSegment.matches_segment`: inactive segments never match;
the body runs under `except (ValueError, TypeError, ImportError)`, which
turns those exceptions into `False`; any other exception propagates. -/
def matches_segment (seg : FeatureFlagsHQSegment) (v : PyVal) : Except PyErr Bool :=
  if !seg.is_active then .ok false
  else
    match matchesBody seg v with
    | .ok r => .ok r
    | .error e => if caughtByMatches e then .ok false else .error e

/-! ## FeatureFlagsHQFlag and evaluate_for_user (models.py) -/

/-- Rollout configuration. -/
structure FeatureFlagsHQRollout where
  percentage : Int
  sticky : Bool := true

/-- A feature flag (dataclass fields of `FeatureFlagsHQFlag`). -/
structure FeatureFlagsHQFlag where
  name : String
  type : String
  value : String
  is_active : Bool
  created_at : String
  segments : Option (List FeatureFlagsHQSegment)
  rollout : FeatureFlagsHQRollout
  updated_at : Option String := Option.none
  version : Int := 1

/-- `FeatureFlagsHQFlag._get_typed_default_value`: the type's zero value. -/
def getTypedDefaultValue (flag : FeatureFlagsHQFlag) : PyVal :=
  if flag.type = "bool" then .b false
  else if flag.type = "int" then .i 0
  else if flag.type = "float" then .f (.fin 0)
  else if flag.type = "json" then .dict []
  else .s ""

/-- `FeatureFlagsHQFlag._get_typed_value`: convert the raw string value by
declared type under `except (ValueError, json.JSONDecodeError)`, falling back
to the typed default; exceptions outside that clause (`OverflowError` from
`int(float("inf"))`) propagate. -/
def getTypedValue (flag : FeatureFlagsHQFlag) : Except PyErr PyVal :=
  let body : Except PyErr PyVal :=
    if flag.type = "bool" then
      .ok (.b (["true", "1", "yes", "on"].contains (strLower flag.value)))
    else if flag.type = "int" then do
      let fl ← floatOfStr flag.value
      let n ← intOfPyFloat fl
      .ok (.i n)
    else if flag.type = "float" then do
      let fl ← floatOfStr flag.value
      .ok (.f fl)
    else if flag.type = "json" then
      match jsonParse flag.value with
      | some v => .ok v
      | Option.none => .error .jsonDecodeError
    else .ok (.s flag.value)
  match body with
  | .ok v => .ok v
  | .error e => if caughtByTypedValue e then .ok (getTypedDefaultValue flag) else .error e

/-- A caller-supplied segment map (Python `Dict[str, Any]`, modelled as an
association list with first-match lookup). -/
abbrev SegMap := List (String × PyVal)

/-- The evaluation context built by `evaluate_for_user` (the provider tag and
wall-clock timing fields are outside the model). -/
structure EvalCtx where
  flag_active : Bool
  segments_matched : List String
  segments_evaluated : List String
  rollout_qualified : Bool
  default_value_used : Bool
  flag_version : Int
  evaluation_reason : String

/-- The segment loop of `evaluate_for_user`: each segment's name is appended to
`segments_evaluated`; segments whose name appears in the caller's map are
matched, and the first match appends to `segments_matched`, sets
`segments_pass` and breaks; a completed loop leaves `segments_pass = False`. -/
def segLoop (m : SegMap) :
    List FeatureFlagsHQSegment → List String → List String →
    Except PyErr (Bool × List String × List String)
  | [], ev, mat => .ok (false, ev, mat)
  | seg :: rest, ev, mat =>
      let ev' := ev ++ [seg.name]
      match m.lookup seg.name with
      | some v =>
          match matches_segment seg v with
          | .error e => .error e
          | .ok true => .ok (true, ev', mat ++ [seg.name])
          | .ok false => segLoop m rest ev' mat
      | Option.none => segLoop m rest ev' mat

/-- The segment-checking block of `evaluate_for_user` (the `if self.segments
and segments` / `elif self.segments and not segments` chain): returns
`(segments_pass, segments_evaluated, segments_matched, evaluation_reason so
far)`.  Both the flag's segment list and the caller's map gate on Python
truthiness (non-empty). -/
def segPhase (flag : FeatureFlagsHQFlag) (segments : Option SegMap) :
    Except PyErr (Bool × List String × List String × String) :=
  let flagSegsT : Bool := match flag.segments with
    | some l => !l.isEmpty
    | Option.none => false
  let callerT : Bool := match segments with
    | some m => !m.isEmpty
    | Option.none => false
  if flagSegsT && callerT then
    (segLoop ((segments.getD [])) (flag.segments.getD []) [] []).map
      (fun r => (r.1, r.2.1, r.2.2, "unknown"))
  else if flagSegsT && !callerT then
    .ok (false, [], [], "segments_required_but_not_provided")
  else .ok (true, [], [], "unknown")

/-- `FeatureFlagsHQFlag.evaluate_for_user`.  Mirrors the source: inactive flag
short-circuits to the typed default; the segment phase (`segPhase`) may record
a required-but-not-provided reason that the subsequent `if not segments_pass`
block overwrites with `"segments_not_matched"`; the rollout phase hashes
`f"{name}_{user_id}_{version}"` when `percentage < 100`. -/
def evaluate_for_user (flag : FeatureFlagsHQFlag) (userId : String)
    (segments : Option SegMap) : Except PyErr (PyVal × EvalCtx) :=
  let ctx0 : EvalCtx :=
    ⟨flag.is_active, [], [], false, false, flag.version, "unknown"⟩
  if !flag.is_active then
    .ok (getTypedDefaultValue flag,
         { ctx0 with default_value_used := true, evaluation_reason := "flag_inactive" })
  else
    match segPhase flag segments with
    | .error e => .error e
    | .ok (pass, ev, mat, reason1) =>
      let ctx1 := { ctx0 with segments_evaluated := ev, segments_matched := mat,
                              evaluation_reason := reason1 }
      if !pass then
        .ok (getTypedDefaultValue flag,
             { ctx1 with default_value_used := true,
                         evaluation_reason := "segments_not_matched" })
      else if flag.rollout.percentage < 100 then
        let bucket := userBucket flag.name userId flag.version
        if (bucket : Int) ≥ flag.rollout.percentage then
          .ok (getTypedDefaultValue flag,
               { ctx1 with default_value_used := true,
                           evaluation_reason := "rollout_not_qualified" })
        else
          (getTypedValue flag).map
            (fun v => (v, { ctx1 with rollout_qualified := true,
                                      evaluation_reason := "rollout_qualified" }))
      else
        (getTypedValue flag).map
          (fun v => (v, { ctx1 with rollout_qualified := true,
                                    evaluation_reason := "full_rollout" }))

/-! ## Circuit breaker (`sdk.py`).  Clock readings (`time.time()` floats) are
modelled as integers: the embedded logic only subtracts and compares them. -/

/-- Circuit breaker states (the source's `'open'` is spelled `opened` because
`open` is a Lean keyword; `halfOpen` is `'half-open'`). -/
inductive CBState where
  | closed
  | opened
  | halfOpen
deriving Repr, DecidableEq

/-- The `_circuit_breaker` dict. -/
structure CircuitBreaker where
  failure_count : Nat
  last_failure_time : Option ℤ
  state : CBState
  failure_threshold : Nat
  recovery_timeout : ℤ
deriving Repr, DecidableEq

/-- The `_circuit_breaker` dict as initialised in `__init__`:
closed, no failures, threshold 5, recovery timeout 60 seconds. -/
def cbInit : CircuitBreaker := ⟨0, Option.none, .closed, 5, 60⟩

/-- `_check_circuit_breaker`: in `open` state, allows (and moves to
`half-open`) only when a failure time is recorded and `now - last >
recovery_timeout`; an `open` breaker with no recorded failure time stays
blocked; any other state allows.  Returns (allowed, updated breaker). -/
def checkCircuitBreaker (now : ℤ) (cb : CircuitBreaker) : Bool × CircuitBreaker :=
  if cb.state = .opened then
    match cb.last_failure_time with
    | some t =>
        if now - t > cb.recovery_timeout then (true, { cb with state := .halfOpen })
        else (false, cb)
    | Option.none => (false, cb)
  else (true, cb)

/-- `_record_api_success` (the stats counters do not affect the breaker). -/
def recordApiSuccess (cb : CircuitBreaker) : CircuitBreaker :=
  if cb.state = .halfOpen then { cb with state := .closed, failure_count := 0 }
  else cb

/-- `_record_api_failure`: increment the count, refresh the failure time, and
open when the count reaches the threshold. -/
def recordApiFailure (now : ℤ) (cb : CircuitBreaker) : CircuitBreaker :=
  let cb1 := { cb with failure_count := cb.failure_count + 1,
                       last_failure_time := some now }
  if cb1.failure_count ≥ cb1.failure_threshold then { cb1 with state := .opened }
  else cb1

/-- The operations applied to the breaker over its lifetime. -/
inductive CBEvent where
  | check (now : ℤ)
  | success
  | failure (now : ℤ)
deriving Repr, DecidableEq

/-- Apply one breaker operation (discarding `check`'s boolean). -/
def cbStep (cb : CircuitBreaker) : CBEvent → CircuitBreaker
  | .check now => (checkCircuitBreaker now cb).2
  | .success => recordApiSuccess cb
  | .failure now => recordApiFailure now cb

/-- The breaker state after a sequence of operations from the initial state. -/
def cbRun (evs : List CBEvent) : CircuitBreaker := evs.foldl cbStep cbInit

/-! ## Per-user rate limiter (`sdk.py`) -/

/-- The `_rate_limits` dict: user id ↦ (request_count, last_request_time). -/
abbrev RateLimits := List (String × (Nat × ℤ))

/-- Dict-style assignment on an association list (first binding updated). -/
def alSet {β : Type} (k : String) (v : β) : List (String × β) → List (String × β)
  | [] => [(k, v)]
  | (k2, w) :: rest => if k2 = k then (k2, v) :: rest else (k2, w) :: alSet k v rest

/-- `_rate_limit_check`: evict entries older than 60 seconds, then allow the
user unless their in-window request count exceeds 1000; allowed requests
increment the count (or reset the bucket to `(1, now)` when absent or the
window has rolled over).  A denial leaves the bucket untouched. -/
def rateLimitCheck (now : ℤ) (userId : String) (rl : RateLimits) :
    Bool × RateLimits :=
  let rl1 := rl.filter (fun p => now - p.2.2 < 60)
  match rl1.lookup userId with
  | some (cnt, last) =>
      if now - last < 60 then
        if cnt > 1000 then (false, rl1)
        else (true, alSet userId (cnt + 1, now) rl1)
      else (true, alSet userId (1, now) rl1)
  | Option.none => (true, alSet userId (1, now) rl1)

/-! ## Telemetry queue (`queue.Queue`) and log upload (`sdk.py`) -/

/-- Python `queue.Queue(maxsize)`: `maxsize <= 0` means infinite capacity.
`__init__` constructs the SDK's `user_access_logs` as `Queue()` — maxsize 0. -/
structure PyQueue (α : Type) where
  maxsize : ℤ
  items : List α
deriving Repr, DecidableEq

/-- `Queue.put(x, block=False)` / `put_nowait`: raises `Full` exactly when a
positive maxsize is reached. -/
def queuePutNowait {α : Type} (q : PyQueue α) (x : α) : Except Unit (PyQueue α) :=
  if 0 < q.maxsize ∧ q.maxsize ≤ (q.items.length : ℤ) then .error ()
  else .ok { q with items := q.items ++ [x] }

/-- `Queue.get_nowait`: raises `Empty` on an empty queue. -/
def queueGetNowait {α : Type} (q : PyQueue α) : Except Unit (α × PyQueue α) :=
  match q.items with
  | [] => .error ()
  | x :: rest => .ok (x, { q with items := rest })

/-- The enqueue step of `_log_user_access`: try a non-blocking put; on `Full`,
drop the oldest entry and retry once, swallowing any further failure. -/
def logEnqueue {α : Type} (q : PyQueue α) (entry : α) : PyQueue α :=
  match queuePutNowait q entry with
  | .ok q2 => q2
  | .error _ =>
      match queueGetNowait q with
      | .ok (_, q1) =>
          match queuePutNowait q1 entry with
          | .ok q2 => q2
          | .error _ => q1
      | .error _ => q

/-- The `user_access_logs` queue as constructed in `__init__`: `Queue()`. -/
def userAccessLogsInit (α : Type) : PyQueue α := ⟨0, []⟩

/-- `_upload_user_logs`, parameterised by whether the circuit breaker allows
the call and whether the POST succeeds; returns the new queue and the batch
whose upload succeeded (empty when none was attempted or it failed).  The
`asdict`/reconstruction round-trip on re-queueing is the identity in the
model. -/
def uploadUserLogs {α : Type} (q : PyQueue α) (breakerAllows uploadSucceeds : Bool)
    (maxLogsBatch : Nat) : PyQueue α × List α :=
  if q.items.isEmpty || !breakerAllows then (q, [])
  else
    let batch := q.items.take maxLogsBatch
    let rest := q.items.drop maxLogsBatch
    if batch.isEmpty then (q, [])
    else if uploadSucceeds then ({ q with items := rest }, batch)
    else ({ q with items := rest ++ batch }, [])

/-! ## Client facade: validation, sanitation, `get`, typed accessors -/

/-- Characters `_validate_user_id` rejects. -/
def dangerousUserChars : List Char := ['\n', '\r', Char.ofNat 0, '\t', Char.ofNat 27]

/-- `_validate_user_id` on a string id (the None/non-string branches are
outside a model whose ids are strings): reject blank, overlong or
dangerous-character ids, return the stripped id.  The unsafe-pattern regex
only logs a warning for user ids. -/
def validateUserId (userId : String) : Except PyErr String :=
  if strTrim userId == "" then .error .ffhqError
  else
    let u := strTrim userId
    if u.data.length > 256 then .error .ffhqError
    else if u.data.any (fun c => dangerousUserChars.contains c) then .error .ffhqError
    else .ok u

/-- Characters `_validate_flag_key` rejects (it additionally rejects the
substring `".."`). -/
def dangerousFlagChars : List Char :=
  ['\n', '\r', Char.ofNat 0, '\t', Char.ofNat 27, '/', '\\']

/-- The character class of `^[a-zA-Z0-9_\-]+$`. -/
def flagKeyOkChar (c : Char) : Bool :=
  (('a' ≤ c ∧ c ≤ 'z') ∨ ('A' ≤ c ∧ c ≤ 'Z')) || c.isDigit || c = '_' || c = '-'

/-- `_validate_flag_key`: reject blank, overlong, dangerous-character,
path-traversal, or non-`[a-zA-Z0-9_-]+` keys; return the stripped key. -/
def validateFlagKey (key : String) : Except PyErr String :=
  if strTrim key == "" then .error .ffhqError
  else
    let k := strTrim key
    if k.data.length > 128 then .error .ffhqError
    else if k.data.any (fun c => dangerousFlagChars.contains c)
            || strContains k ".." then .error .ffhqError
    else if !(k.data.all flagKeyOkChar) then .error .ffhqError
    else .ok k

/-- The string-value sanitation of `_sanitize_segments`: strip `\n`, `\r`,
NUL, then truncate to 1024 characters. -/
def sanitizeStr (v : String) : String :=
  ⟨(v.data.filter (fun c => !(c = '\n' ∨ c = '\r' ∨ c = Char.ofNat 0))).take 1024⟩

/-- Per-value sanitation: strings are cleaned, int/float/bool pass through,
anything else is stringified and truncated. -/
def sanitizeVal : PyVal → PyVal
  | .s v => .s (sanitizeStr v)
  | .i n => .i n
  | .f fl => .f fl
  | .b bv => .b bv
  | v => .s ⟨(pyStr v).data.take 1024⟩

/-- `_sanitize_segments`: `None` and empty maps are returned as-is; otherwise
empty keys are dropped, keys are stripped and length-capped, values
sanitised. -/
def sanitizeSegments : Option SegMap → Option SegMap
  | Option.none => Option.none
  | some m =>
    if m.isEmpty then some m
    else some (m.foldl (fun acc kv =>
      if kv.1 == "" then acc
      else
        let k2 := strTrim kv.1
        if k2.data.length > 128 then acc
        else alSet k2 (sanitizeVal kv.2) acc) [])

/-- `x is None`. -/
def isNone : PyVal → Bool
  | .none => true
  | _ => false

/-- `FeatureFlagsHQSDK.get` along its value path: validate inputs (validation
failures raise to the caller), sanitise segments, rate-limit (denial returns
the caller's default without reading the flag cache), look up the flag
(absence returns the default), evaluate (any evaluation exception is caught
and the default returned), then substitute the caller's non-None default when
the evaluator used the typed default.  Telemetry logging and statistics do not
affect the returned value and are modelled by `logEnqueue`; returns the value
with the updated rate-limit table. -/
def sdkGet (flags : List (String × FeatureFlagsHQFlag)) (rl : RateLimits)
    (now : ℤ) (userId flagKey : String) (defaultValue : PyVal)
    (segments : Option SegMap) : Except PyErr (PyVal × RateLimits) := do
  let uid ← validateUserId userId
  let key ← validateFlagKey flagKey
  let segs := sanitizeSegments segments
  let (allowed, rl2) := rateLimitCheck now uid rl
  if !allowed then .ok (defaultValue, rl2)
  else
    match flags.lookup key with
    | Option.none => .ok (defaultValue, rl2)
    | some flag =>
        match evaluate_for_user flag uid segs with
        | .error _ => .ok (defaultValue, rl2)
        | .ok (v, ctx) =>
            if ctx.default_value_used && !(isNone defaultValue) then
              .ok (defaultValue, rl2)
            else .ok (v, rl2)

/-- The tail of `get_float`: `float(value) if value is not None else
float(default_value)` under `except (ValueError, TypeError)` returning
`float(default_value)`. -/
def getFloatRest (value : PyVal) (df : PyFloat) : PyFloat :=
  if isNone value then df
  else
    match pyFloatOfVal value with
    | .ok fl => fl
    | .error _ => df

/-- `FeatureFlagsHQSDK.get_float`: call `get` with the float default; when the
result compares equal to `0.0` and the caller's default is not `0.0`, re-read
the cached flag by the caller's raw key and, if present and active, re-parse
its raw string value, falling back to the default on parse failure; otherwise
coerce the returned value.  Validation errors from `get` propagate. -/
def sdkGetFloat (flags : List (String × FeatureFlagsHQFlag)) (rl : RateLimits)
    (now : ℤ) (userId flagKey : String) (df : PyFloat)
    (segments : Option SegMap) : Except PyErr PyFloat :=
  match sdkGet flags rl now userId flagKey (.f df) segments with
  | .error e => .error e
  | .ok (value, _) =>
      if pyEqBool value (.f (.fin 0)) && !(pyFloatEq df (.fin 0)) then
        match flags.lookup flagKey with
        | some flag =>
            if flag.is_active then
              .ok (match pyFloatParse flag.value with
                   | some fl => fl
                   | Option.none => df)
            else .ok (getFloatRest value df)
        | Option.none => .ok (getFloatRest value df)
      else .ok (getFloatRest value df)

/-- The tail of `get_json`: non-strings are returned as-is, strings are parsed
as JSON with the default on `JSONDecodeError`. -/
def getJsonRest (value : PyVal) (defaultValue : PyVal) : PyVal :=
  match value with
  | .s str =>
      (match jsonParse str with
       | some v => v
       | Option.none => defaultValue)
  | v => v

/-- `FeatureFlagsHQSDK.get_json`: a `None` default becomes `{}`; when the
result is an empty dict and the caller's default is not `{}`, re-read the
cached flag by the caller's raw key and, if present and active, re-parse its
raw value as JSON, falling back to the default on decode failure; otherwise
non-string results are returned as-is and string results parsed. -/
def sdkGetJson (flags : List (String × FeatureFlagsHQFlag)) (rl : RateLimits)
    (now : ℤ) (userId flagKey : String) (defaultValue0 : PyVal)
    (segments : Option SegMap) : Except PyErr PyVal :=
  let defaultValue := if isNone defaultValue0 then .dict [] else defaultValue0
  match sdkGet flags rl now userId flagKey defaultValue segments with
  | .error e => .error e
  | .ok (value, _) =>
      let emptyDict := match value with
        | .dict l => l.isEmpty
        | _ => false
      if emptyDict && !(pyEqBool defaultValue (.dict [])) then
        match flags.lookup flagKey with
        | some flag =>
            if flag.is_active then
              .ok (match jsonParse flag.value with
                   | some v => v
                   | Option.none => defaultValue)
            else .ok (getJsonRest value defaultValue)
        | Option.none => .ok (getJsonRest value defaultValue)
      else .ok (getJsonRest value defaultValue)

/-! ## Helper lemmas -/

/-- With non-positive maxsize (the SDK's `Queue()`), a non-blocking put always
succeeds, so `_log_user_access`'s enqueue just appends. -/
theorem logEnqueue_infinite {α : Type} (q : PyQueue α) (x : α) (h : q.maxsize ≤ 0) :
    logEnqueue q x = { q with items := q.items ++ [x] } := by
  have hc : ¬ (0 < q.maxsize ∧ q.maxsize ≤ (q.items.length : ℤ)) := by
    rintro ⟨h1, _⟩
    omega
  unfold logEnqueue queuePutNowait
  rw [if_neg hc]

/-- Folding enqueues over an infinite-capacity queue appends all entries. -/
theorem foldl_logEnqueue_infinite {α : Type} (es : List α) (q : PyQueue α)
    (h : q.maxsize ≤ 0) : (es.foldl logEnqueue q).items = q.items ++ es := by
  induction es generalizing q with
  | nil => simp
  | cons x xs ih =>
      rw [List.foldl_cons, logEnqueue_infinite q x h, ih]
      · simp
      · exact h

/-! ## Claim theorems -/

/-- C4 (code_bug evidence): `__init__` constructs `user_access_logs = Queue()`
— maxsize 0, infinite capacity — so the non-blocking put in `_log_user_access`
never raises `Full`, the drop-oldest branch is dead code, and after any
sequence of enqueues the queue holds every entry ever enqueued, in order:
nothing is evicted and no capacity bounds the queue. -/
theorem telemetry_queue_unbounded (entries : List Nat) :
    (entries.foldl logEnqueue (userAccessLogsInit Nat)).items = entries ∧
    (entries.foldl logEnqueue (userAccessLogsInit Nat)).items.length
      = entries.length := by
  have h := foldl_logEnqueue_infinite entries (userAccessLogsInit Nat)
    (by simp [userAccessLogsInit])
  have h2 : (entries.foldl logEnqueue (userAccessLogsInit Nat)).items = entries := by
    simpa [userAccessLogsInit] using h
  exact ⟨h2, by rw [h2]⟩

/-- C5 (code_bug evidence): for an active flag with a non-empty segment list
and no caller-supplied segment map, evaluation returns the typed default, but
the reported reason is `"segments_not_matched"`: the
`"segments_required_but_not_provided"` reason set at models.py:220 is
overwritten by the unconditional assignment at models.py:224.  The repo's own
test (tests/unit/test_models.py:298) asserts the former reason on exactly this
flag. -/
theorem segments_required_reason_overwritten :
    evaluate_for_user
      ⟨"premium_flag", "string", "premium_feature", true, "2023-01-01T00:00:00Z",
       some [⟨"premium", "bool", "==", "true", true, "2023-01-01T00:00:00Z"⟩],
       ⟨100, true⟩, Option.none, 1⟩
      "user123" Option.none =
    .ok (.s "", ⟨true, [], [], false, true, 1, "segments_not_matched"⟩) := by rfl

/-- C7: one run of `_upload_user_logs` drains at most `max_logs_batch` entries;
when the breaker blocks or the queue is empty nothing happens; a successful
upload discards exactly the drained prefix; a failed upload re-enqueues every
drained entry, leaving the queue a permutation of what it held before. -/
theorem upload_drain_requeue {α : Type} (q : PyQueue α) (allow succ : Bool)
    (maxB : Nat) :
    (uploadUserLogs q allow succ maxB).2.length ≤ maxB ∧
    (allow = false ∨ q.items = [] → uploadUserLogs q allow succ maxB = (q, [])) ∧
    (allow = true → q.items ≠ [] → 0 < maxB → succ = true →
      uploadUserLogs q allow succ maxB =
        ({ q with items := q.items.drop maxB }, q.items.take maxB)) ∧
    (allow = true → q.items ≠ [] → 0 < maxB → succ = false →
      (uploadUserLogs q allow succ maxB).1.items =
          q.items.drop maxB ++ q.items.take maxB ∧
        ((uploadUserLogs q allow succ maxB).1.items).Perm q.items) := by
  refine ⟨?_, ?_, ?_, ?_⟩
  · by_cases ha : allow = true
    · by_cases he : q.items = []
      · simp [uploadUserLogs, ha, he]
      · by_cases hs : succ = true <;>
          · simp [uploadUserLogs, ha, he, hs, List.length_take]
            split <;> simp [List.length_take]
    · simp [uploadUserLogs, Bool.not_eq_true] at ha ⊢
      simp [ha]
  · rintro (ha | he)
    · simp [uploadUserLogs, ha]
    · simp [uploadUserLogs, he]
  · intro ha he hm hs
    have hb : q.items.take maxB ≠ [] := by
      simp only [ne_eq, List.take_eq_nil_iff, not_or]
      exact ⟨by omega, he⟩
    simp [uploadUserLogs, ha, he, hs, hb]
  · intro ha he hm hs
    have hb : q.items.take maxB ≠ [] := by
      simp only [ne_eq, List.take_eq_nil_iff, not_or]
      exact ⟨by omega, he⟩
    constructor
    · simp [uploadUserLogs, ha, he, hs, hb]
    · simp [uploadUserLogs, ha, he, hs, hb]
      calc (q.items.drop maxB ++ q.items.take maxB).Perm
            (q.items.take maxB ++ q.items.drop maxB) := List.perm_append_comm
        _ = q.items := by rw [List.take_append_drop]

/-- C8 (amended): typed conversion of the raw string value: bool is true
exactly when the lowercased value is one of true/1/yes/on; int parses as float
then truncates toward zero (so "42.7" yields 42); float parses directly; json
parses the raw string as structured data; any other declared type is identity
string; and a raw value whose parse FAILS yields the type's zero value (false,
0, 0.0, empty dict, empty string) instead of an exception ("not_a_number" as
int yields 0) — but an int-typed flag whose raw value parses as an INFINITE
float ("inf", "Infinity", or an overflowing literal such as "1e999", which
`float()` saturates to infinity) raises OverflowError from `int(float(...))`,
which `except (ValueError, json.JSONDecodeError)` does not catch; a value
parsing as nan yields 0 (its ValueError is caught). -/
theorem typed_value_conversion (flag : FeatureFlagsHQFlag) :
    (flag.type = "bool" →
      getTypedValue flag =
        .ok (.b (["true", "1", "yes", "on"].contains (strLower flag.value)))) ∧
    (flag.type = "int" → ∀ q : ℚ, pyFloatParse flag.value = some (.fin q) →
      getTypedValue flag = .ok (.i (ratTrunc q))) ∧
    (flag.type = "int" → pyFloatParse flag.value = Option.none →
      getTypedValue flag = .ok (.i 0)) ∧
    (flag.type = "int" → pyFloatParse flag.value = some .inf →
      getTypedValue flag = .error .overflowError) ∧
    (flag.type = "int" → pyFloatParse flag.value = some .ninf →
      getTypedValue flag = .error .overflowError) ∧
    (flag.type = "int" → pyFloatParse flag.value = some .nan →
      getTypedValue flag = .ok (.i 0)) ∧
    (flag.type = "float" → ∀ fl, pyFloatParse flag.value = some fl →
      getTypedValue flag = .ok (.f fl)) ∧
    (flag.type = "float" → pyFloatParse flag.value = Option.none →
      getTypedValue flag = .ok (.f (.fin 0))) ∧
    (flag.type = "json" → ∀ v, jsonParse flag.value = some v →
      getTypedValue flag = .ok v) ∧
    (flag.type = "json" → jsonParse flag.value = Option.none →
      getTypedValue flag = .ok (.dict [])) ∧
    (flag.type ≠ "bool" → flag.type ≠ "int" → flag.type ≠ "float" →
      flag.type ≠ "json" → getTypedValue flag = .ok (.s flag.value)) ∧
    (flag.type = "int" → flag.value = "42.7" → getTypedValue flag = .ok (.i 42)) := by
  refine ⟨?_, ?_, ?_, ?_, ?_, ?_, ?_, ?_, ?_, ?_, ?_, ?_⟩
  · intro hT
    simp [getTypedValue, hT]
  · intro hT q hq
    simp only [getTypedValue, hT, floatOfStr, hq]
    rfl
  · intro hT hq
    simp only [getTypedValue, hT, floatOfStr, hq, getTypedDefaultValue]
    rfl
  · intro hT hq
    simp only [getTypedValue, hT, floatOfStr, hq]
    rfl
  · intro hT hq
    simp only [getTypedValue, hT, floatOfStr, hq]
    rfl
  · intro hT hq
    simp only [getTypedValue, hT, floatOfStr, hq, getTypedDefaultValue]
    rfl
  · intro hT fl hq
    simp only [getTypedValue, hT, floatOfStr, hq]
    rfl
  · intro hT hq
    simp only [getTypedValue, hT, floatOfStr, hq, getTypedDefaultValue]
    rfl
  · intro hT v hv
    simp [getTypedValue, hT, hv]
  · intro hT hv
    simp [getTypedValue, hT, hv, caughtByTypedValue, getTypedDefaultValue]
  · intro h1 h2 h3 h4
    simp [getTypedValue, h1, h2, h3, h4]
  · intro hT hv
    have : pyFloatParse "42.7" = some (.fin (mkRat 427 10)) := by rfl
    simp [getTypedValue, hT, hv, floatOfStr, this, intOfPyFloat, caughtByTypedValue]
    rfl

/-- C8 counterexample: an int-typed flag whose raw value parses as an
infinite float — "inf", or the overflowing literal "1e999" that Python's
`float()` saturates to infinity — raises OverflowError from
`int(float(...))` at models.py:253 instead of yielding the type's zero
value, because `except (ValueError, json.JSONDecodeError)` at models.py:260
does not catch OverflowError. -/
theorem typed_value_overflow_counterexample :
    getTypedValue ⟨"x", "int", "inf", true, "", Option.none, ⟨100, true⟩,
        Option.none, 1⟩ = .error .overflowError ∧
    getTypedValue ⟨"x", "int", "1e999", true, "", Option.none, ⟨100, true⟩,
        Option.none, 1⟩ = .error .overflowError := by
  exact ⟨by rfl, by rfl⟩

/-- Witness for C8 at concrete inputs: an int flag with value "7.9" truncates
to 7, one with an unparsable value yields 0, and one whose value parses to
infinity raises OverflowError. -/
theorem typed_value_conversion_witness :
    getTypedValue ⟨"w", "int", "7.9", true, "", Option.none, ⟨100, true⟩,
        Option.none, 1⟩ = .ok (.i (ratTrunc (mkRat 79 10))) ∧
    getTypedValue ⟨"w2", "int", "not_a_number", true, "", Option.none,
        ⟨100, true⟩, Option.none, 1⟩ = .ok (.i 0) ∧
    getTypedValue ⟨"w3", "int", "Infinity", true, "", Option.none,
        ⟨100, true⟩, Option.none, 1⟩ = .error .overflowError :=
  ⟨(typed_value_conversion _).2.1 rfl (mkRat 79 10) (by rfl),
   (typed_value_conversion _).2.2.1 rfl (by rfl),
   (typed_value_conversion _).2.2.2.1 rfl (by rfl)⟩

/-- C10: with declared type bool the segment's target is true exactly when its
lowercased string is "true", while the caller's value goes through Python
truthiness; so a `== "true"` bool segment matches every truthy caller value —
including the non-empty string "false" — and a target value of "1" coerces to
false (matching exactly the falsy callers) even though flag-value coercion
treats "1" as true. -/
theorem bool_segment_coercion_mismatch (seg : FeatureFlagsHQSegment)
    (ht : seg.type = "bool") (hc : seg.comparator = "==")
    (hval : seg.value = "true") (hact : seg.is_active = true) :
    (∀ v, truthy v = true → matches_segment seg v = .ok true) ∧
    matches_segment seg (.s "false") = .ok true ∧
    (∀ seg2 : FeatureFlagsHQSegment, seg2.type = "bool" → seg2.comparator = "==" →
        seg2.value = "1" → seg2.is_active = true →
        ∀ v, matches_segment seg2 v = .ok (!(truthy v))) ∧
    (∀ flag : FeatureFlagsHQFlag, flag.type = "bool" → flag.value = "1" →
        getTypedValue flag = .ok (.b true)) := by
  refine ⟨?_, ?_, ?_, ?_⟩
  · intro v hv
    simp only [matches_segment, hact, matchesBody, coerceSeg, ht, hc, hval,
               applyComparator, coEq, hv, strLower]
    rfl
  · simp only [matches_segment, hact, matchesBody, coerceSeg, ht, hc, hval,
               applyComparator, coEq, truthy, strLower]
    rfl
  · intro seg2 ht2 hc2 hval2 hact2 v
    cases htv : truthy v <;>
      simp only [matches_segment, hact2, matchesBody, coerceSeg, ht2, hc2, hval2,
                 applyComparator, coEq, strLower, htv] <;>
      rfl
  · intro flag hT hv
    simp [getTypedValue, hT, hv]
    exact Or.inr (Or.inl rfl)

/-- Witness for C10: the truthy caller value 7 matches the `== "true"` bool
segment. -/
theorem bool_segment_coercion_mismatch_witness :
    matches_segment ⟨"s", "bool", "==", "true", true, "c"⟩ (.i 7) = .ok true :=
  (bool_segment_coercion_mismatch _ rfl rfl rfl rfl).1 (.i 7) (by rfl)

/-- Witness for C7 at a concrete queue: draining 2 of 3 entries, a failed
upload re-queues the drained prefix behind the remainder, a successful one
discards it. -/
theorem upload_drain_requeue_witness :
    (uploadUserLogs (⟨0, [1, 2, 3]⟩ : PyQueue Nat) true false 2).1.items
        = [3, 1, 2] ∧
    uploadUserLogs (⟨0, [1, 2, 3]⟩ : PyQueue Nat) true true 2
        = (⟨0, [3]⟩, [1, 2]) :=
  ⟨((upload_drain_requeue (⟨0, [1, 2, 3]⟩ : PyQueue Nat) true false 2).2.2.2
      rfl (by simp) (by omega) rfl).1,
   (upload_drain_requeue (⟨0, [1, 2, 3]⟩ : PyQueue Nat) true true 2).2.2.1
      rfl (by simp) (by omega) rfl⟩

/-- C1: for an active flag whose segment check passes, when
`rollout.percentage < 100` evaluation buckets the user by
`int(sha256(f"{name}_{user_id}_{version}".encode()).hexdigest()[:8], 16) % 100`
(`userBucket`): a bucket at or above the percentage returns the typed default
with reason "rollout_not_qualified", a bucket below it returns the typed value
with reason "rollout_qualified"; percentage 100 returns the typed value with
reason "full_rollout" for every user; and percentage 0 returns the typed
default for every user. -/
theorem rollout_bucketing (flag : FeatureFlagsHQFlag) (userId : String)
    (segments : Option SegMap) (ev mat : List String) (r1 : String)
    (hact : flag.is_active = true)
    (hseg : segPhase flag segments = .ok (true, ev, mat, r1)) :
    (flag.rollout.percentage < 100 →
      (userBucket flag.name userId flag.version : ℤ) ≥ flag.rollout.percentage →
      evaluate_for_user flag userId segments =
        .ok (getTypedDefaultValue flag,
             ⟨true, mat, ev, false, true, flag.version, "rollout_not_qualified"⟩)) ∧
    (flag.rollout.percentage < 100 →
      (userBucket flag.name userId flag.version : ℤ) < flag.rollout.percentage →
      ∀ v, getTypedValue flag = .ok v →
      evaluate_for_user flag userId segments =
        .ok (v, ⟨true, mat, ev, true, false, flag.version, "rollout_qualified"⟩)) ∧
    (flag.rollout.percentage = 100 →
      ∀ v, getTypedValue flag = .ok v →
      evaluate_for_user flag userId segments =
        .ok (v, ⟨true, mat, ev, true, false, flag.version, "full_rollout"⟩)) ∧
    (flag.rollout.percentage = 0 →
      evaluate_for_user flag userId segments =
        .ok (getTypedDefaultValue flag,
             ⟨true, mat, ev, false, true, flag.version, "rollout_not_qualified"⟩)) := by
  refine ⟨?_, ?_, ?_, ?_⟩
  · intro hp hb
    simp only [evaluate_for_user, hact, Bool.not_true, Bool.false_eq_true, if_false,
               hseg, ge_iff_le] at *
    simp [if_pos hp, if_pos hb]
  · intro hp hb v hv
    simp only [evaluate_for_user, hact, Bool.not_true, Bool.false_eq_true, if_false,
               hseg, ge_iff_le]
    simp [if_pos hp, if_neg (not_le.mpr hb), hv, Except.map]
  · intro hp v hv
    have hnp : ¬ flag.rollout.percentage < 100 := by omega
    simp only [evaluate_for_user, hact, Bool.not_true, Bool.false_eq_true, if_false,
               hseg]
    simp [if_neg hnp, hv, Except.map]
  · intro hp
    have hp1 : flag.rollout.percentage < 100 := by omega
    have hb : (userBucket flag.name userId flag.version : ℤ) ≥ flag.rollout.percentage := by
      rw [hp]
      exact Int.natCast_nonneg _
    simp only [evaluate_for_user, hact, Bool.not_true, Bool.false_eq_true, if_false,
               hseg, ge_iff_le] at *
    simp [if_pos hp1, if_pos hb]

set_option maxRecDepth 40000 in
/-- Witness for C1 with the flag "f", user "u", version 1 (bucket 56):
a 50% rollout excludes the user, a 100% rollout is a full rollout. -/
theorem rollout_bucketing_witness :
    evaluate_for_user
        ⟨"f", "string", "x", true, "", Option.none, ⟨50, true⟩, Option.none, 1⟩
        "u" Option.none =
      .ok (.s "", ⟨true, [], [], false, true, 1, "rollout_not_qualified"⟩) ∧
    evaluate_for_user
        ⟨"f", "string", "x", true, "", Option.none, ⟨100, true⟩, Option.none, 1⟩
        "u" Option.none =
      .ok (.s "x", ⟨true, [], [], true, false, 1, "full_rollout"⟩) :=
  ⟨(rollout_bucketing _ "u" Option.none [] [] "unknown" rfl (by rfl)).1
      (by decide) (by decide),
   (rollout_bucketing _ "u" Option.none [] [] "unknown" rfl (by rfl)).2.2.1
      rfl (.s "x") (by rfl)⟩

/-- A single allowed in-window rate-limit check increments the bucket. -/
theorem rateLimit_step (uid : String) (t t0 : ℤ) (n : Nat)
    (hw : t - t0 < 60) (hn : n ≤ 1000) :
    rateLimitCheck t uid [(uid, (n, t0))] = (true, [(uid, (n + 1, t))]) := by
  simp [rateLimitCheck, alSet, hw, if_neg (by omega : ¬ n > 1000)]

/-- After `n ≤ 1001` checks at one instant starting from an empty table, the
user's bucket holds count `n`. -/
theorem rateLimit_iterate (n : Nat) (hn : n ≤ 1001) :
    (List.range n).foldl (fun st _ => (rateLimitCheck 0 "u" st).2) [] =
      if n = 0 then [] else [("u", (n, 0))] := by
  induction n with
  | zero => simp
  | succ k ih =>
      rw [List.range_succ, List.foldl_append]
      rw [ih (by omega)]
      by_cases hk : k = 0
      · subst hk
        rfl
      · rw [if_neg hk, if_neg (by omega : ¬ k + 1 = 0)]
        simp [rateLimit_step "u" 0 0 k (by omega) (by omega)]

/-- Membership in an assoc-list assignment comes from the new binding or the
old list. -/
theorem mem_alSet {β : Type} (k : String) (v : β) (l : List (String × β))
    (p : String × β) (hp : p ∈ alSet k v l) : p = (k, v) ∨ p ∈ l := by
  induction l with
  | nil =>
      left
      simpa [alSet] using hp
  | cons q rest ih =>
      obtain ⟨q1, q2⟩ := q
      by_cases hq : q1 = k
      · rw [show alSet k v ((q1, q2) :: rest) = (q1, v) :: rest by
              simp [alSet, hq]] at hp
        rcases List.mem_cons.mp hp with h | h
        · left
          rw [h, hq]
        · right
          exact List.mem_cons_of_mem _ h
      · rw [show alSet k v ((q1, q2) :: rest) = (q1, q2) :: alSet k v rest by
              simp [alSet, hq]] at hp
        rcases List.mem_cons.mp hp with h | h
        · right
          rw [h]
          exact List.mem_cons_self _ _
        · rcases ih h with h2 | h2
          · left
            exact h2
          · right
            exact List.mem_cons_of_mem _ h2

/-- `Except` bind on a success reduces. -/
theorem except_bind_ok {ε α β : Type} (a : α) (f : α → Except ε β) :
    (Except.ok (ε := ε) a >>= f) = f a := rfl

/-- Every bucket in a rate-limit check's output is younger than the window:
survivors passed the eviction filter and the touched bucket is stamped now. -/
theorem rateLimit_result_fresh (t : ℤ) (uid : String) (rl : RateLimits)
    (p : String × (Nat × ℤ)) (hp : p ∈ (rateLimitCheck t uid rl).2) :
    t - p.2.2 < 60 := by
  have hfilter : ∀ q ∈ rl.filter (fun q => decide (t - q.2.2 < 60)),
      t - q.2.2 < 60 := by
    intro q hq
    simpa using (List.mem_filter.mp hq).2
  have halset : ∀ c : Nat,
      p ∈ alSet uid (c, t) (rl.filter (fun q => decide (t - q.2.2 < 60))) →
      t - p.2.2 < 60 := by
    intro c h
    rcases mem_alSet _ _ _ _ h with h2 | h2
    · subst h2
      show t - t < 60
      omega
    · exact hfilter _ h2
  simp only [rateLimitCheck] at hp
  rcases hlook : List.lookup uid (rl.filter (fun q => decide (t - q.2.2 < 60)))
    with _ | ⟨cnt, last⟩
  · rw [hlook] at hp
    exact halset 1 hp
  · rw [hlook] at hp
    by_cases h1 : t - last < 60
    · by_cases h2 : cnt > 1000
      · simp only [if_pos h1, if_pos h2] at hp
        exact hfilter _ hp
      · simp only [if_pos h1, if_neg h2] at hp
        exact halset (cnt + 1) hp
    · simp only [if_neg h1] at hp
      exact halset 1 hp

/-- C3 counterexample: starting from an empty rate-limit table, 1000 checks at
one instant leave the user's bucket at count 1000, and the 1001st check is
still ALLOWED (the guard `request_count > 1000` fires only from the 1002nd
check on), contradicting the claim that the 1001st is denied. -/
theorem rate_limit_offbyone_counterexample :
    ((List.range 1000).foldl (fun st _ => (rateLimitCheck 0 "u" st).2) [])
        = [("u", (1000, 0))] ∧
    (rateLimitCheck 0 "u" [("u", (1000, 0))]).1 = true ∧
    (rateLimitCheck 0 "u" [("u", (1001, 0))]).1 = false := by
  refine ⟨?_, by decide, by decide⟩
  have h := rateLimit_iterate 1000 (by omega)
  simpa using h

/-- C3 (amended): within a 60-second window 1001 checks are allowed for a user
— the k-th allowed check stores count k and a check is denied exactly when the
stored count exceeds 1000, so the 1002nd check is the first denied.  A check
against a bucket older than 60 seconds resets it to `(1, now)` and allows; a
denial leaves the bucket unchanged; every bucket surviving a check is younger
than 60 seconds (stale buckets are evicted); and a rate-denied `get` returns
the caller's default value for every flag cache (the cache is never
consulted). -/
theorem rate_limit_window_behavior :
    (∀ (uid : String) (t t0 : ℤ) (n : Nat), t - t0 < 60 → n ≤ 1000 →
      rateLimitCheck t uid [(uid, (n, t0))] = (true, [(uid, (n + 1, t))])) ∧
    (∀ (uid : String) (t t0 : ℤ) (n : Nat), t - t0 < 60 → n > 1000 →
      rateLimitCheck t uid [(uid, (n, t0))] = (false, [(uid, (n, t0))])) ∧
    (∀ (uid : String) (t t0 : ℤ) (n : Nat), t - t0 ≥ 60 →
      rateLimitCheck t uid [(uid, (n, t0))] = (true, [(uid, (1, t))])) ∧
    (∀ (t : ℤ) (uid : String) (rl : RateLimits) (p : String × (Nat × ℤ)),
      p ∈ (rateLimitCheck t uid rl).2 → t - p.2.2 < 60) ∧
    (∀ (flags : List (String × FeatureFlagsHQFlag)) (rl : RateLimits) (t : ℤ)
       (uid key : String) (dv : PyVal) (segs : Option SegMap) (u k : String),
      validateUserId uid = .ok u → validateFlagKey key = .ok k →
      (rateLimitCheck t u rl).1 = false →
      sdkGet flags rl t uid key dv segs = .ok (dv, (rateLimitCheck t u rl).2)) := by
  refine ⟨rateLimit_step, ?_, ?_, ?_, ?_⟩
  · intro uid t t0 n hw hn
    simp [rateLimitCheck, hw, if_pos (by omega : n > 1000)]
  · intro uid t t0 n hw
    have hf : decide (t - t0 < 60) = false := by
      simp only [decide_eq_false_iff_not]
      omega
    simp [rateLimitCheck, List.filter, hf, alSet]
  · exact rateLimit_result_fresh
  · intro flags rl t uid key dv segs u k hu hk hdeny
    rcases hEq : rateLimitCheck t u rl with ⟨allowed, rl2⟩
    rw [hEq] at hdeny
    simp only at hdeny
    subst hdeny
    simp [sdkGet, hu, hk, hEq, except_bind_ok]

/-- Witness for C3's amended theorem at concrete inputs. -/
theorem rate_limit_window_behavior_witness :
    rateLimitCheck 10 "u" [("u", (5, 0))] = (true, [("u", (6, 10))]) ∧
    rateLimitCheck 10 "u" [("u", (1500, 0))] = (false, [("u", (1500, 0))]) ∧
    rateLimitCheck 70 "u" [("u", (900, 0))] = (true, [("u", (1, 70))]) ∧
    sdkGet [] [("u", (1500, 0))] 0 "u" "k" (.i 3) Option.none =
      .ok (.i 3, [("u", (1500, 0))]) :=
  ⟨rate_limit_window_behavior.1 "u" 10 0 5 (by omega) (by omega),
   rate_limit_window_behavior.2.1 "u" 10 0 1500 (by omega) (by omega),
   rate_limit_window_behavior.2.2.1 "u" 70 0 900 (by omega),
   rate_limit_window_behavior.2.2.2.2 [] [("u", (1500, 0))] 0 "u" "k" (.i 3)
     Option.none "u" "k" (by rfl) (by rfl) (by decide)⟩

/-- The breaker invariant preserved by every operation: the configured
threshold (5) and recovery timeout (60) never change, and away from `closed`
the failure count has already reached the threshold. -/
def CBInv (cb : CircuitBreaker) : Prop :=
  cb.failure_threshold = 5 ∧ cb.recovery_timeout = 60 ∧
    (cb.state ≠ .closed → cb.failure_count ≥ 5)

/-- The initial breaker satisfies the invariant. -/
theorem cbInv_init : CBInv cbInit := by
  refine ⟨rfl, rfl, ?_⟩
  intro h
  simp [cbInit] at h

/-- Every breaker operation preserves the invariant. -/
theorem cbInv_step (cb : CircuitBreaker) (e : CBEvent) (h : CBInv cb) :
    CBInv (cbStep cb e) := by
  obtain ⟨h5, h60, hcnt⟩ := h
  cases e with
  | check now =>
      simp only [cbStep, checkCircuitBreaker]
      by_cases hs : cb.state = .opened
      · rcases hl : cb.last_failure_time with _ | t
        · simp only [hs, hl, if_pos rfl]
          exact ⟨h5, h60, hcnt⟩
        · by_cases ht : now - t > cb.recovery_timeout
          · simp only [hs, hl, if_pos rfl, if_pos ht]
            exact ⟨h5, h60, fun _ => hcnt (by simp [hs])⟩
          · simp only [hs, hl, if_pos rfl, if_neg ht]
            exact ⟨h5, h60, hcnt⟩
      · simp only [if_neg hs]
        exact ⟨h5, h60, hcnt⟩
  | success =>
      simp only [cbStep, recordApiSuccess]
      by_cases hs : cb.state = .halfOpen
      · simp only [if_pos hs]
        exact ⟨h5, h60, by simp⟩
      · simp only [if_neg hs]
        exact ⟨h5, h60, hcnt⟩
  | failure now =>
      simp only [cbStep, recordApiFailure]
      by_cases hth : cb.failure_count + 1 ≥ cb.failure_threshold
      · simp only [if_pos hth]
        exact ⟨h5, h60, fun _ => by simp; omega⟩
      · simp only [if_neg hth]
        refine ⟨h5, h60, fun hne => ?_⟩
        have := hcnt hne
        simp
        omega

/-- Every reachable breaker state satisfies the invariant. -/
theorem cbInv_run (evs : List CBEvent) : CBInv (cbRun evs) := by
  have aux : ∀ (l : List CBEvent) (cb : CircuitBreaker), CBInv cb →
      CBInv (l.foldl cbStep cb) := by
    intro l
    induction l with
    | nil => intro cb h; exact h
    | cons e rest ih =>
        intro cb h
        exact ih _ (cbInv_step cb e h)
  exact aux evs cbInit cbInv_init

/-- C2 counterexample: five recorded failures interleaved with a success — so
never five consecutive failures — still open the breaker, because a success
recorded while `closed` does not reset the failure count; after the same
prefix with only four failures the breaker is still closed. -/
theorem circuit_breaker_nonconsecutive_counterexample :
    (cbRun [.failure 0, .failure 1, .success, .failure 2, .failure 3]).state
        = .closed ∧
    (cbRun [.failure 0, .failure 1, .success, .failure 2, .failure 3,
            .failure 4]).state = .opened ∧
    (cbRun [.failure 0, .failure 1, .success, .failure 2, .failure 3,
            .failure 4]).failure_count = 5 := by decide

/-- C2 (amended): the breaker starts closed with zero failures; from `closed`,
recording a failure opens it exactly when the cumulative count reaches the
threshold 5 (failures need not be consecutive — a success recorded while
closed changes nothing); while open with a recorded failure time, the
allow-check returns true exactly when `now - lastFailureTime` exceeds the
recovery timeout and then itself moves the state to half-open; open with no
recorded failure time never allows; a success in half-open closes the breaker
and zeroes the count; and a failure on any reachable half-open state reopens
the breaker and refreshes the failure time. -/
theorem circuit_breaker_state_machine :
    cbInit.state = .closed ∧ cbInit.failure_count = 0 ∧
    (∀ (cb : CircuitBreaker) (now : ℤ), cb.state = .closed →
      cb.failure_threshold = 5 →
      ((recordApiFailure now cb).state = .opened ↔ cb.failure_count + 1 ≥ 5)) ∧
    (∀ cb : CircuitBreaker, cb.state = .closed → recordApiSuccess cb = cb) ∧
    (∀ (cb : CircuitBreaker) (now t : ℤ), cb.state = .opened →
      cb.last_failure_time = some t →
      (((checkCircuitBreaker now cb).1 = true) ↔ now - t > cb.recovery_timeout) ∧
      (now - t > cb.recovery_timeout →
        (checkCircuitBreaker now cb).2.state = .halfOpen)) ∧
    (∀ (cb : CircuitBreaker) (now : ℤ), cb.state = .opened →
      cb.last_failure_time = Option.none →
      checkCircuitBreaker now cb = (false, cb)) ∧
    (∀ cb : CircuitBreaker, cb.state = .halfOpen →
      recordApiSuccess cb = { cb with state := .closed, failure_count := 0 }) ∧
    (∀ (evs : List CBEvent) (now : ℤ), (cbRun evs).state = .halfOpen →
      (recordApiFailure now (cbRun evs)).state = .opened ∧
      (recordApiFailure now (cbRun evs)).last_failure_time = some now) := by
  refine ⟨rfl, rfl, ?_, ?_, ?_, ?_, ?_, ?_⟩
  · intro cb now hs hth
    constructor
    · intro h
      by_contra hlt
      simp only [recordApiFailure, hth] at h
      rw [if_neg (by omega : ¬ cb.failure_count + 1 ≥ 5)] at h
      simp only at h
      rw [hs] at h
      exact CBState.noConfusion h
    · intro h
      simp only [recordApiFailure, hth]
      rw [if_pos (by omega : cb.failure_count + 1 ≥ 5)]
  · intro cb hs
    simp [recordApiSuccess, hs]
  · intro cb now t hs hl
    refine ⟨?_, ?_⟩
    · constructor
      · intro h
        by_contra ht
        simp [checkCircuitBreaker, hs, hl, if_neg ht] at h
      · intro ht
        simp [checkCircuitBreaker, hs, hl, if_pos ht]
    · intro ht
      simp [checkCircuitBreaker, hs, hl, if_pos ht]
  · intro cb now hs hl
    simp [checkCircuitBreaker, hs, hl]
  · intro cb hs
    simp [recordApiSuccess, hs]
  · intro evs now hs
    obtain ⟨h5, _, hcnt⟩ := cbInv_run evs
    have hge : (cbRun evs).failure_count ≥ 5 := hcnt (by simp [hs])
    constructor
    · simp only [recordApiFailure, h5]
      rw [if_pos (by omega : (cbRun evs).failure_count + 1 ≥ 5)]
    · simp only [recordApiFailure, h5]
      rw [if_pos (by omega : (cbRun evs).failure_count + 1 ≥ 5)]

/-- Witness for C2's amended theorem at concrete breakers: the fifth failure
opens a closed breaker at count 4; an open breaker with failure time 0 allows
at time 100 and moves to half-open; a half-open state reached by five failures
and a late check reopens on the next failure. -/
theorem circuit_breaker_state_machine_witness :
    (recordApiFailure 1 ⟨4, some 0, .closed, 5, 60⟩).state = .opened ∧
    ((checkCircuitBreaker 100 ⟨5, some 0, .opened, 5, 60⟩).1 = true ∧
      (checkCircuitBreaker 100 ⟨5, some 0, .opened, 5, 60⟩).2.state = .halfOpen) ∧
    checkCircuitBreaker 100 ⟨5, Option.none, .opened, 5, 60⟩
        = (false, ⟨5, Option.none, .opened, 5, 60⟩) ∧
    (recordApiFailure 200
        (cbRun [.failure 0, .failure 0, .failure 0, .failure 0, .failure 0,
                .check 100])).state = .opened :=
  ⟨(circuit_breaker_state_machine.2.2.1 ⟨4, some 0, .closed, 5, 60⟩ 1 rfl rfl).mpr
      (by decide),
   ⟨((circuit_breaker_state_machine.2.2.2.2.1 ⟨5, some 0, .opened, 5, 60⟩ 100 0
        rfl rfl).1).mpr (by decide),
    ((circuit_breaker_state_machine.2.2.2.2.1 ⟨5, some 0, .opened, 5, 60⟩ 100 0
        rfl rfl).2) (by decide)⟩,
   circuit_breaker_state_machine.2.2.2.2.2.1 ⟨5, Option.none, .opened, 5, 60⟩ 100
      rfl rfl,
   (circuit_breaker_state_machine.2.2.2.2.2.2.2
      [.failure 0, .failure 0, .failure 0, .failure 0, .failure 0, .check 100]
      200 (by decide)).1⟩

/-- C9: whenever `get` returns a value comparing equal to the float zero 0.0
(respectively the empty JSON object) and the caller supplied a custom default
different from that zero value, `get_float` (respectively `get_json`) re-reads
the cached flag and, if it exists and is active, re-parses the flag's raw
string value and returns the parse result, or the caller's default when that
parse fails; a flag legitimately evaluating to exactly the zero value is thus
routed through this re-parse path rather than returned as-is. -/
theorem zero_value_reparse (flags : List (String × FeatureFlagsHQFlag))
    (rl : RateLimits) (now : ℤ) (uid key : String) (segs : Option SegMap) :
    (∀ (df : PyFloat) (v : PyVal) (rl2 : RateLimits) (flag : FeatureFlagsHQFlag),
      sdkGet flags rl now uid key (.f df) segs = .ok (v, rl2) →
      pyEqBool v (.f (.fin 0)) = true → pyFloatEq df (.fin 0) = false →
      flags.lookup key = some flag → flag.is_active = true →
      sdkGetFloat flags rl now uid key df segs =
        .ok (match pyFloatParse flag.value with
             | some fl => fl
             | Option.none => df)) ∧
    (∀ (dv v : PyVal) (rl2 : RateLimits) (flag : FeatureFlagsHQFlag),
      isNone dv = false →
      sdkGet flags rl now uid key dv segs = .ok (v, rl2) →
      (match v with | .dict l => l.isEmpty | _ => false) = true →
      pyEqBool dv (.dict []) = false →
      flags.lookup key = some flag → flag.is_active = true →
      sdkGetJson flags rl now uid key dv segs =
        .ok (match jsonParse flag.value with
             | some j => j
             | Option.none => dv)) := by
  constructor
  · intro df v rl2 flag hget hzero hdf hlook hact
    simp only [sdkGetFloat, hget, hzero, hdf, hlook, hact, Bool.not_false,
               Bool.and_true, if_pos rfl, if_true]
  · intro dv v rl2 flag hnone hget hempty hne hlook hact
    simp only [sdkGetJson, hnone, Bool.false_eq_true, if_false, hget, hempty,
               hne, Bool.not_false, Bool.and_true, hlook, hact, if_true]

/-- Witness for C9: a float flag with unparsable raw value "abc" evaluates to
the typed zero, and `get_float` with default 5.0 returns 5.0 through the
re-parse path; a json flag with unparsable raw value returns the caller's
non-empty default through the re-parse path. -/
theorem zero_value_reparse_witness :
    sdkGetFloat [("k", ⟨"k", "float", "abc", true, "", Option.none, ⟨100, true⟩,
        Option.none, 1⟩)] [] 0 "u1" "k" (.fin 5) Option.none = .ok (.fin 5) ∧
    sdkGetJson [("j", ⟨"j", "json", "not json", true, "", Option.none,
        ⟨100, true⟩, Option.none, 1⟩)] [] 0 "u1" "j" (.dict [("a", .i 1)])
        Option.none = .ok (.dict [("a", .i 1)]) :=
  ⟨(zero_value_reparse _ [] 0 "u1" "k" Option.none).1 (.fin 5) (.f (.fin 0))
      [("u1", (1, 0))] _ (by rfl) (by rfl) (by rfl) (by rfl) rfl,
   (zero_value_reparse _ [] 0 "u1" "j" Option.none).2 (.dict [("a", .i 1)])
      (.dict []) [("u1", (1, 0))] _ (by rfl) (by rfl) (by rfl) (by rfl)
      (by rfl) rfl⟩

/-- `Except` bind on a failure short-circuits. -/
theorem except_bind_err {ε α β : Type} (e : ε) (f : α → Except ε β) :
    (Except.error (α := α) e >>= f) = .error e := rfl

/-- `float(x)` raises only `ValueError` or `TypeError`. -/
theorem pyFloatOfVal_error (v : PyVal) (e : PyErr)
    (h : pyFloatOfVal v = .error e) : e = .valueError ∨ e = .typeError := by
  cases v <;> simp only [pyFloatOfVal] at h <;>
    first
    | (split at h <;> simp_all)
    | simp_all

/-- `int(_)` on a float raises only `OverflowError` (infinities) or
`ValueError` (nan). -/
theorem intOfPyFloat_error (fl : PyFloat) (e : PyErr)
    (h : intOfPyFloat fl = .error e) : e = .overflowError ∨ e = .valueError := by
  cases fl <;> simp_all [intOfPyFloat]

/-- The caller-value float literal test: true exactly on the infinities. -/
def isInfFloat : PyVal → Bool
  | .f .inf => true
  | .f .ninf => true
  | _ => false

/-- `int(x)` raises only `ValueError`, `TypeError` or `OverflowError`. -/
theorem pyIntOfVal_error (v : PyVal) (e : PyErr)
    (h : pyIntOfVal v = .error e) :
    e = .valueError ∨ e = .typeError ∨ e = .overflowError := by
  cases v with
  | f fl =>
      simp only [pyIntOfVal] at h
      rcases intOfPyFloat_error fl e h with h2 | h2
      · right; right; exact h2
      · left; exact h2
  | _ =>
      simp only [pyIntOfVal] at h
      first
      | (split at h <;> simp_all)
      | simp_all

/-- `int(x)` can overflow only on an infinite float argument. -/
theorem pyIntOfVal_overflow (v : PyVal)
    (h : pyIntOfVal v = .error .overflowError) : isInfFloat v = true := by
  cases v with
  | f fl => cases fl <;> simp_all [pyIntOfVal, intOfPyFloat, isInfFloat]
  | s str =>
      simp only [pyIntOfVal] at h
      split at h <;> simp_all
  | _ => simp_all [pyIntOfVal]

/-- `float(s)` on the segment's own value raises only `ValueError`. -/
theorem floatOfStr_error (str : String) (e : PyErr)
    (h : floatOfStr str = .error e) : e = .valueError := by
  simp only [floatOfStr] at h
  split at h <;> simp_all

/-- `int(s)` on the segment's own value raises only `ValueError`. -/
theorem intOfStr_error (str : String) (e : PyErr)
    (h : intOfStr str = .error e) : e = .valueError := by
  simp only [intOfStr] at h
  split at h <;> simp_all

/-- The coercion block raises only `ValueError`, `TypeError`, or
`OverflowError`. -/
theorem coerceSeg_error (seg : FeatureFlagsHQSegment) (v : PyVal) (e : PyErr)
    (h : coerceSeg seg v = .error e) :
    e = .valueError ∨ e = .typeError ∨ e = .overflowError := by
  simp only [coerceSeg] at h
  split_ifs at h
  · rcases hf : floatOfStr seg.value with ef | sv
    · simp only [hf, except_bind_err, Except.error.injEq] at h
      obtain rfl := h
      have := floatOfStr_error seg.value _ hf
      tauto
    · simp only [hf, except_bind_ok] at h
      rcases hu : pyFloatOfVal v with eu | uv
      · simp only [hu, except_bind_err, Except.error.injEq] at h
        obtain rfl := h
        have := pyFloatOfVal_error v _ hu
        tauto
      · simp only [hu, except_bind_ok] at h
        simp at h
  · rcases hf : intOfStr seg.value with ef | sv
    · simp only [hf, except_bind_err, Except.error.injEq] at h
      obtain rfl := h
      have := intOfStr_error seg.value _ hf
      tauto
    · simp only [hf, except_bind_ok] at h
      rcases hu : pyIntOfVal v with eu | uv
      · simp only [hu, except_bind_err, Except.error.injEq] at h
        obtain rfl := h
        have := pyIntOfVal_error v _ hu
        tauto
      · simp only [hu, except_bind_ok] at h
        simp at h

/-- The comparator dispatch raises only `TypeError`, `AttributeError`, or
`re.error`. -/
theorem applyComparator_error (cmp : String) (c : Coerced) (e : PyErr)
    (h : applyComparator cmp c = .error e) :
    e = .typeError ∨ e = .attributeError ∨ e = .regexError := by
  unfold applyComparator at h
  by_cases h1 : cmp = "=="
  · rw [if_pos h1] at h
    simp at h
  rw [if_neg h1] at h
  by_cases h2 : cmp = "!="
  · rw [if_pos h2] at h
    simp at h
  rw [if_neg h2] at h
  by_cases h3 : cmp = ">"
  · rw [if_pos h3] at h
    simp at h
  rw [if_neg h3] at h
  by_cases h4 : cmp = ">="
  · rw [if_pos h4] at h
    simp at h
  rw [if_neg h4] at h
  by_cases h5 : cmp = "<"
  · rw [if_pos h5] at h
    simp at h
  rw [if_neg h5] at h
  by_cases h6 : cmp = "<="
  · rw [if_pos h6] at h
    simp at h
  rw [if_neg h6] at h
  by_cases h7 : cmp = "contains"
  · rw [if_pos h7] at h
    cases c <;> simp_all
  rw [if_neg h7] at h
  by_cases h8 : cmp = "starts_with"
  · rw [if_pos h8] at h
    cases c <;> simp_all
  rw [if_neg h8] at h
  by_cases h9 : cmp = "ends_with"
  · rw [if_pos h9] at h
    cases c <;> simp_all
  rw [if_neg h9] at h
  by_cases h10 : cmp = "regex"
  · rw [if_pos h10] at h
    cases c with
    | str sv uv =>
        simp only [reSearch] at h
        split_ifs at h
        simp_all
    | flt sv uv => simp_all
    | int sv uv => simp_all
    | bool sv uv => simp_all
  rw [if_neg h10] at h
  by_cases h11 : cmp = "in"
  · rw [if_pos h11] at h
    cases c <;> simp_all
  rw [if_neg h11] at h
  simp at h

/-- The try-block of `matches_segment` raises only coercion or comparator
errors. -/
theorem matchesBody_error (seg : FeatureFlagsHQSegment) (v : PyVal) (e : PyErr)
    (h : matchesBody seg v = .error e) :
    e = .valueError ∨ e = .typeError ∨ e = .overflowError ∨
      e = .attributeError ∨ e = .regexError := by
  simp only [matchesBody] at h
  rcases hc : coerceSeg seg v with ec | c
  · simp only [hc, except_bind_err, Except.error.injEq] at h
    obtain rfl := h
    have := coerceSeg_error seg v _ hc
    tauto
  · simp only [hc, except_bind_ok] at h
    have := applyComparator_error seg.comparator c e h
    tauto

/-- After the except clause, `matches_segment` can raise only
`OverflowError`, `AttributeError`, or `re.error`. -/
theorem matches_segment_error (seg : FeatureFlagsHQSegment) (v : PyVal)
    (e : PyErr) (h : matches_segment seg v = .error e) :
    e = .overflowError ∨ e = .attributeError ∨ e = .regexError := by
  simp only [matches_segment] at h
  split_ifs at h
  rcases hb : matchesBody seg v with eb | b
  · simp only [hb] at h
    by_cases hcaught : caughtByMatches eb = true
    · simp only [hcaught, if_true] at h
      simp at h
    · simp only [hcaught, if_false, Bool.false_eq_true, Except.error.injEq] at h
      obtain rfl := h
      rcases matchesBody_error seg v _ hb with h1 | h1 | h1 | h1 | h1 <;>
        subst h1 <;> simp_all [caughtByMatches]
  · simp only [hb] at h
    simp at h

/-- The segment loop raises only what `matches_segment` raises. -/
theorem segLoop_error (m : SegMap) (l : List FeatureFlagsHQSegment)
    (ev mat : List String) (e : PyErr) (h : segLoop m l ev mat = .error e) :
    e = .overflowError ∨ e = .attributeError ∨ e = .regexError := by
  induction l generalizing ev mat with
  | nil => simp [segLoop] at h
  | cons seg rest ih =>
      simp only [segLoop] at h
      rcases hl : m.lookup seg.name with _ | v
      · simp only [hl] at h
        exact ih _ _ h
      · simp only [hl] at h
        rcases hm : matches_segment seg v with em | b
        · simp only [hm, Except.error.injEq] at h
          obtain rfl := h
          exact matches_segment_error seg v _ hm
        · simp only [hm] at h
          cases b
          · exact ih _ _ h
          · simp at h

/-- `Except.map` on a failure is that failure. -/
theorem except_map_err {ε α β : Type} (f : α → β) (e : ε) :
    Except.map (β := β) f (Except.error (α := α) e) = .error e := rfl

/-- `Except.map` on a success applies the function. -/
theorem except_map_ok {ε α β : Type} (f : α → β) (a : α) :
    Except.map (β := β) f (Except.ok (ε := ε) a) = .ok (f a) := rfl

/-- The segment phase raises only what the loop raises. -/
theorem segPhase_error (flag : FeatureFlagsHQFlag) (segments : Option SegMap)
    (e : PyErr) (h : segPhase flag segments = .error e) :
    e = .overflowError ∨ e = .attributeError ∨ e = .regexError := by
  simp only [segPhase] at h
  split_ifs at h
  · rcases hl : segLoop (segments.getD []) (flag.segments.getD []) [] []
        with el | r
    · simp only [hl, except_map_err, Except.error.injEq] at h
      obtain rfl := h
      exact segLoop_error _ _ _ _ _ hl
    · simp only [hl, except_map_ok] at h
      simp at h

/-- `_get_typed_value` raises only `OverflowError` (the except clause catches
`ValueError` and `json.JSONDecodeError`). -/
theorem getTypedValue_error (flag : FeatureFlagsHQFlag) (e : PyErr)
    (h : getTypedValue flag = .error e) : e = .overflowError := by
  simp only [getTypedValue] at h
  by_cases hb : flag.type = "bool"
  · rw [if_pos hb] at h
    simp at h
  rw [if_neg hb] at h
  by_cases hi : flag.type = "int"
  · rw [if_pos hi] at h
    rcases hf : floatOfStr flag.value with ef | fl
    · have hve := floatOfStr_error flag.value ef hf
      subst hve
      simp [hf, except_bind_err, caughtByTypedValue] at h
    · simp only [hf, except_bind_ok] at h
      rcases hif : intOfPyFloat fl with ei | n
      · rcases intOfPyFloat_error fl ei hif with h2 | h2 <;> subst h2 <;>
          simp_all [except_bind_err, caughtByTypedValue]
      · simp only [hif, except_bind_ok] at h
        simp at h
  rw [if_neg hi] at h
  by_cases hfl : flag.type = "float"
  · rw [if_pos hfl] at h
    rcases hf : floatOfStr flag.value with ef | fl
    · have hve := floatOfStr_error flag.value ef hf
      subst hve
      simp [hf, except_bind_err, caughtByTypedValue] at h
    · simp only [hf, except_bind_ok] at h
      simp at h
  rw [if_neg hfl] at h
  by_cases hj : flag.type = "json"
  · rw [if_pos hj] at h
    rcases hjp : jsonParse flag.value with _ | jv <;>
      simp [hjp, caughtByTypedValue] at h
  rw [if_neg hj] at h
  simp at h

/-- C6 counterexample: a segment with comparator `"in"` and declared type
float coerces its own value to a Python float and then calls
`segment_val.split(',')` — floats have no `split`, so `AttributeError`
propagates out of `matches_segment`'s except clause and `evaluate_for_user`
raises, refuting "never raises an exception". -/
theorem evaluate_raises_counterexample :
    evaluate_for_user
      ⟨"f", "string", "x", true, "2023", some [⟨"tier", "float", "in", "1.5",
          true, "2023"⟩], ⟨100, true⟩, Option.none, 1⟩
      "u" (some [("tier", .s "2.0")]) = .error .attributeError := by rfl

/-- C6 (amended): `evaluate_for_user` never lets a coercion failure
(`ValueError`/`TypeError`), an unknown comparator, or a value-parse failure
escape — those make the segment not match or degrade the value to the type's
default; however it is not exception-free: the only exceptions it can raise
are `AttributeError` (comparator `"in"` with a declared type whose coerced
target value is not a string), `re.error` (a malformed regex pattern), and
`OverflowError` (an infinite float cast to int). -/
theorem evaluate_exception_safety :
    (∀ (flag : FeatureFlagsHQFlag) (userId : String) (m : Option SegMap)
       (e : PyErr), evaluate_for_user flag userId m = .error e →
      e = .attributeError ∨ e = .regexError ∨ e = .overflowError) ∧
    (∀ (seg : FeatureFlagsHQSegment) (v : PyVal),
      seg.comparator ∉ ["==", "!=", ">", ">=", "<", "<=", "contains",
        "starts_with", "ends_with", "regex", "in"] →
      isInfFloat v = false →
      matches_segment seg v = .ok false) ∧
    (∀ flag : FeatureFlagsHQFlag,
      ((flag.type = "int" ∨ flag.type = "float") →
        pyFloatParse flag.value = Option.none →
        getTypedValue flag = .ok (getTypedDefaultValue flag)) ∧
      (flag.type = "json" → jsonParse flag.value = Option.none →
        getTypedValue flag = .ok (getTypedDefaultValue flag))) := by
  refine ⟨?_, ?_, ?_⟩
  · intro flag userId m e h
    simp only [evaluate_for_user] at h
    by_cases hact : (!flag.is_active) = true
    · rw [if_pos hact] at h
      simp at h
    rw [if_neg hact] at h
    rcases hs : segPhase flag m with es | r
    · simp only [hs, Except.error.injEq] at h
      obtain rfl := h
      rcases segPhase_error flag m _ hs with h2 | h2 | h2 <;> simp [h2]
    · obtain ⟨pass, ev, mat, r1⟩ := r
      simp only [hs] at h
      cases pass
      · simp at h
      · rw [if_neg (by simp : ¬ (!true) = true)] at h
        by_cases hp : flag.rollout.percentage < 100
        · rw [if_pos hp] at h
          by_cases hb : (userBucket flag.name userId flag.version : ℤ) ≥
              flag.rollout.percentage
          · rw [if_pos hb] at h
            simp at h
          · rw [if_neg hb] at h
            rcases ht : getTypedValue flag with et | tv
            · simp only [ht, except_map_err, Except.error.injEq] at h
              obtain rfl := h
              right; right
              exact getTypedValue_error flag _ ht
            · simp only [ht, except_map_ok] at h
              simp at h
        · rw [if_neg hp] at h
          rcases ht : getTypedValue flag with et | tv
          · simp only [ht, except_map_err, Except.error.injEq] at h
            obtain rfl := h
            right; right
            exact getTypedValue_error flag _ ht
          · simp only [ht, except_map_ok] at h
            simp at h
  · intro seg v hcmp hinf
    simp only [List.mem_cons, List.mem_singleton, not_or] at hcmp
    obtain ⟨n1, n2, n3, n4, n5, n6, n7, n8, n9, n10, n11, _⟩ := hcmp
    by_cases hact : seg.is_active
    · have hbody : ∀ e, matchesBody seg v = .error e → caughtByMatches e = true := by
        intro e he
        simp only [matchesBody] at he
        rcases hc : coerceSeg seg v with ec | c
        · simp only [hc, except_bind_err, Except.error.injEq] at he
          obtain rfl := he
          rcases coerceSeg_error seg v _ hc with h2 | h2 | h2 <;> subst h2 <;>
            first
            | rfl
            | (exfalso
               simp only [coerceSeg] at hc
               split_ifs at hc
               · rcases hf : floatOfStr seg.value with ef | sv
                 · simp only [hf, except_bind_err, Except.error.injEq] at hc
                   have := floatOfStr_error seg.value _ hf
                   simp_all
                 · simp only [hf, except_bind_ok] at hc
                   rcases hu : pyFloatOfVal v with eu | uv
                   · simp only [hu, except_bind_err, Except.error.injEq] at hc
                     rcases pyFloatOfVal_error v _ hu with h3 | h3 <;> simp_all
                   · simp only [hu, except_bind_ok] at hc
                     simp at hc
               · rcases hf : intOfStr seg.value with ef | sv
                 · simp only [hf, except_bind_err, Except.error.injEq] at hc
                   have := intOfStr_error seg.value _ hf
                   simp_all
                 · simp only [hf, except_bind_ok] at hc
                   rcases hu : pyIntOfVal v with eu | uv
                   · simp only [hu, except_bind_err, Except.error.injEq] at hc
                     obtain rfl := hc
                     have := pyIntOfVal_overflow v hu
                     simp_all
                   · simp only [hu, except_bind_ok] at hc
                     simp at hc
               )
        · simp only [hc, except_bind_ok] at he
          exfalso
          unfold applyComparator at he
          rw [if_neg n1, if_neg n2, if_neg n3, if_neg n4, if_neg n5, if_neg n6,
              if_neg n7, if_neg n8, if_neg n9, if_neg n10, if_neg n11] at he
          simp at he
      simp only [matches_segment, hact, Bool.not_true, Bool.false_eq_true,
                 if_false]
      rcases hbv : matchesBody seg v with eb | b
      · simp [hbv, hbody eb hbv]
      · cases b
        · simp [hbv]
        · exfalso
          simp only [matchesBody] at hbv
          rcases hc : coerceSeg seg v with ec | c
          · simp [hc, except_bind_err] at hbv
          · simp only [hc, except_bind_ok] at hbv
            unfold applyComparator at hbv
            rw [if_neg n1, if_neg n2, if_neg n3, if_neg n4, if_neg n5, if_neg n6,
                if_neg n7, if_neg n8, if_neg n9, if_neg n10, if_neg n11] at hbv
            simp at hbv
    · simp [matches_segment, Bool.not_eq_true] at hact ⊢
      simp [hact]
  · intro flag
    refine ⟨?_, ?_⟩
    · rintro (hT | hT) hp <;>
        simp [getTypedValue, hT, floatOfStr, hp, getTypedDefaultValue] <;> rfl
    · intro hT hp
      simp [getTypedValue, hT, hp, getTypedDefaultValue, caughtByTypedValue]

/-- Witness for C6's amended theorem: the AttributeError raised by the
`"in"`/float segment falls in the characterised error set; an unknown
comparator yields a non-match; an unparsable int flag value degrades to 0. -/
theorem evaluate_exception_safety_witness :
    (PyErr.attributeError = .attributeError ∨ PyErr.attributeError = .regexError ∨
      PyErr.attributeError = .overflowError) ∧
    matches_segment ⟨"s", "string", "weird_op", "x", true, "c"⟩ (.i 1)
        = .ok false ∧
    getTypedValue ⟨"w", "int", "oops", true, "", Option.none, ⟨100, true⟩,
        Option.none, 1⟩ = .ok (getTypedDefaultValue ⟨"w", "int", "oops", true,
        "", Option.none, ⟨100, true⟩, Option.none, 1⟩) :=
  ⟨evaluate_exception_safety.1
      ⟨"f", "string", "x", true, "2023", some [⟨"tier", "float", "in", "1.5",
          true, "2023"⟩], ⟨100, true⟩, Option.none, 1⟩
      "u" (some [("tier", .s "2.0")]) .attributeError (by rfl),
   evaluate_exception_safety.2.1 ⟨"s", "string", "weird_op", "x", true, "c"⟩
      (.i 1) (by decide) (by rfl),
   (evaluate_exception_safety.2.2 _).1 (Or.inl rfl) (by rfl)⟩

end FFH
